import Mathlib

set_option maxRecDepth 20000

/-!
Verification development for the `crewai_backend` study-help pipeline
(`agents/agent.py`, `agents/example_agents.py`, `agents/tools/whiteboard_tool.py`,
`agent_runner.py`).

Texts are modelled as `List Char`.  Python string operations used by the code
(`.lower()`, `.strip()`, `in`, `.split()`, `.title()`, `.replace`) are modelled
for ASCII text, which is the alphabet the relevant comparisons and markers use.
-/

abbrev Str := List Char

def apos : Char := Char.ofNat 39

def backquote : Char := Char.ofNat 96

/-- ASCII model of Python `str.lower` on one character. -/
def lowerChar (c : Char) : Char :=
  if 'A' ≤ c ∧ c ≤ 'Z' then Char.ofNat (c.toNat + 32) else c

/-- ASCII model of Python `str.upper` on one character. -/
def upperChar (c : Char) : Char :=
  if 'a' ≤ c ∧ c ≤ 'z' then Char.ofNat (c.toNat - 32) else c

def lowerStr (s : Str) : Str := s.map lowerChar

/-- Python whitespace for `str.strip` / `str.split` and the regex class `\s`
(ASCII: space, tab, newline, carriage return, vertical tab, form feed). -/
def isPySpace (c : Char) : Bool :=
  c = ' ' || c = '\t' || c = '\n' || c = '\r' || c = '\x0b' || c = '\x0c'

/-- Python `str.strip()`. -/
def pyStrip (s : Str) : Str :=
  ((s.dropWhile isPySpace).reverse.dropWhile isPySpace).reverse

/-- Python substring containment `needle in hay` (`"" in s` is `True`). -/
def strIn (needle : Str) : Str → Bool
  | [] => needle.isEmpty
  | c :: t => needle.isPrefixOf (c :: t) || strIn needle t

/-- Least index `i ≥ start` at which `needle` occurs in `hay`. -/
def findFrom (needle hay : Str) (start : Nat) : Option Nat :=
  (List.range (hay.length + 1)).find?
    (fun i => decide (start ≤ i) && needle.isPrefixOf (hay.drop i))

/-- Case-insensitive prefix test (regex `re.IGNORECASE` literals, ASCII). -/
def ciPrefix (needle hay : Str) : Bool :=
  (lowerStr needle).isPrefixOf (lowerStr hay)

/-- Least index `i ≥ start` at which `needle` occurs case-insensitively. -/
def findCIFrom (needle hay : Str) (start : Nat) : Option Nat :=
  (List.range (hay.length + 1)).find?
    (fun i => decide (start ≤ i) && ciPrefix needle (hay.drop i))

/-! ## JSON values and `json.loads`

Model of the subset of Python `json.loads` the pipeline feeds with agent text:
objects, arrays, strings with the standard escapes (`\uXXXX` without surrogate
pairing), booleans, `null`, and numbers stored as mantissa and a power of ten.
Leading-zero rejection and float printing are not modelled.  Duplicate object
keys are kept in order; lookup takes the last occurrence, as a Python dict
built by `json.loads` would. -/

inductive Json where
  | jnull
  | jbool (b : Bool)
  | jnum (mantissa : Int) (exp10 : Int)
  | jstr (s : Str)
  | jarr (items : List Json)
  | jobj (members : List (Str × Json))

abbrev JObj := List (Str × Json)

/-- JSON whitespace accepted by `json.loads` between tokens. -/
def isJsonWs (c : Char) : Bool :=
  c = ' ' || c = '\t' || c = '\n' || c = '\r'

def skipWsJ (s : Str) : Str := s.dropWhile isJsonWs

def hexVal (c : Char) : Option Nat :=
  if '0' ≤ c ∧ c ≤ '9' then some (c.toNat - '0'.toNat)
  else if 'a' ≤ c ∧ c ≤ 'f' then some (c.toNat - 'a'.toNat + 10)
  else if 'A' ≤ c ∧ c ≤ 'F' then some (c.toNat - 'A'.toNat + 10)
  else none

/-- String literal body after the opening quote: content and rest after the
closing quote. -/
def parseStrLit : Str → Option (Str × Str)
  | [] => none
  | '"' :: r => some ([], r)
  | '\\' :: 'u' :: a :: b :: c :: d :: r =>
    match hexVal a, hexVal b, hexVal c, hexVal d with
    | some x, some y, some z, some w =>
      match parseStrLit r with
      | some (out, r2) => some (Char.ofNat (((x * 16 + y) * 16 + z) * 16 + w) :: out, r2)
      | none => none
    | _, _, _, _ => none
  | '\\' :: e :: r =>
    let ec : Option Char :=
      if e = '"' then some '"'
      else if e = '\\' then some '\\'
      else if e = '/' then some '/'
      else if e = 'b' then some '\x08'
      else if e = 'f' then some '\x0c'
      else if e = 'n' then some '\n'
      else if e = 'r' then some '\r'
      else if e = 't' then some '\t'
      else none
    match ec with
    | some ch =>
      match parseStrLit r with
      | some (out, r2) => some (ch :: out, r2)
      | none => none
    | none => none
  | c :: r =>
    if c.toNat < 32 then none
    else
      match parseStrLit r with
      | some (out, r2) => some (c :: out, r2)
      | none => none

def digitsToNat (ds : Str) : Nat :=
  ds.foldl (fun acc c => acc * 10 + (c.toNat - '0'.toNat)) 0

/-- JSON number: optional minus, digits, optional fraction, optional exponent. -/
def parseNum (s : Str) : Option (Json × Str) :=
  let (neg, s1) := match s with
    | '-' :: r => (true, r)
    | _ => (false, s)
  let ds := s1.takeWhile Char.isDigit
  if ds = [] then none
  else
    let r1 := s1.drop ds.length
    let (frac, r2) := match r1 with
      | '.' :: rf =>
        let fs := rf.takeWhile Char.isDigit
        if fs = [] then ([], r1) else (fs, rf.drop fs.length)
      | _ => ([], r1)
    if r1 ≠ r2 ∨ frac = [] then
      let (exp, r3) := match r2 with
        | 'e' :: re => (some re, re)
        | 'E' :: re => (some re, re)
        | _ => (none, r2)
      match exp with
      | none =>
        let m : Int := Int.ofNat (digitsToNat (ds ++ frac))
        some (.jnum (if neg then -m else m) (-(Int.ofNat frac.length)), r2)
      | some re =>
        let (eneg, re1) := match re with
          | '-' :: rr => (true, rr)
          | '+' :: rr => (false, rr)
          | _ => (false, re)
        let es := re1.takeWhile Char.isDigit
        if es = [] then none
        else
          let m : Int := Int.ofNat (digitsToNat (ds ++ frac))
          let e : Int := Int.ofNat (digitsToNat es)
          some (.jnum (if neg then -m else m)
                 ((if eneg then -e else e) - Int.ofNat frac.length),
                re1.drop es.length)
    else none

mutual

def parseVal : Nat → Str → Option (Json × Str)
  | 0, _ => none
  | fuel + 1, s =>
    let s1 := skipWsJ s
    match s1 with
    | 'n' :: 'u' :: 'l' :: 'l' :: r => some (.jnull, r)
    | 't' :: 'r' :: 'u' :: 'e' :: r => some (.jbool true, r)
    | 'f' :: 'a' :: 'l' :: 's' :: 'e' :: r => some (.jbool false, r)
    | '"' :: r =>
      match parseStrLit r with
      | some (content, r2) => some (.jstr content, r2)
      | none => none
    | '[' :: r =>
      match skipWsJ r with
      | ']' :: r3 => some (.jarr [], r3)
      | r2 => parseArrItems fuel r2 []
    | '{' :: r =>
      match skipWsJ r with
      | '}' :: r3 => some (.jobj [], r3)
      | r2 => parseObjItems fuel r2 []
    | _ => parseNum s1

def parseArrItems : Nat → Str → List Json → Option (Json × Str)
  | 0, _, _ => none
  | fuel + 1, s, acc =>
    match parseVal fuel s with
    | none => none
    | some (v, r) =>
      match skipWsJ r with
      | ',' :: r2 => parseArrItems fuel r2 (acc ++ [v])
      | ']' :: r2 => some (.jarr (acc ++ [v]), r2)
      | _ => none

def parseObjItems : Nat → Str → List (Str × Json) → Option (Json × Str)
  | 0, _, _ => none
  | fuel + 1, s, acc =>
    match skipWsJ s with
    | '"' :: r =>
      match parseStrLit r with
      | none => none
      | some (key, r2) =>
        match skipWsJ r2 with
        | ':' :: r3 =>
          match parseVal fuel r3 with
          | none => none
          | some (v, r4) =>
            match skipWsJ r4 with
            | ',' :: r5 => parseObjItems fuel r5 (acc ++ [(key, v)])
            | '}' :: r5 => some (.jobj (acc ++ [(key, v)]), r5)
            | _ => none
        | _ => none
    | _ => none

end

/-- Model of Python `json.loads`: a full parse with only whitespace left over. -/
def pyJsonLoads (s : Str) : Option Json :=
  match parseVal (2 * s.length + 16) s with
  | some (v, r) => if skipWsJ r = [] then some v else none
  | none => none

/-- Python `key in parsed` on a dict produced by `json.loads`. -/
def jHasKey (o : JObj) (k : Str) : Bool :=
  o.any (fun p => decide (p.1 = k))

/-- Python `parsed.get(key)`: last binding wins, as in a Python dict. -/
def jGet (o : JObj) (k : Str) : Option Json :=
  (o.reverse.find? (fun p => decide (p.1 = k))).map (fun p => p.2)

/-! ## Whiteboard payload extractor (`agent.py`, `extract_whiteboard_tool_output`)

The function tries, in order: a whole-text `json.loads`; `re.findall` of
```` ```json\s*(\{.*?\})\s*``` ````; the same without the `json` tag; and
`re.findall` of `\{[^{}]*(?:\{[^{}]*\}[^{}]*)*\}` — then returns the first
candidate that parses to a dict passing the whiteboard-shape test. -/

/-- `parsed.get("type") in ["graph", "diagram", "concept_map", "step_by_step"]`. -/
def whiteboardTypeTag (v : Option Json) : Bool :=
  match v with
  | some (.jstr t) =>
    decide (t = "graph".data) || decide (t = "diagram".data) ||
    decide (t = "concept_map".data) || decide (t = "step_by_step".data)
  | _ => false

/-- Acceptance test of the whole-text strategy (`agent.py` lines 899-903). -/
def validDirect (o : JObj) : Bool :=
  jHasKey o "type".data || jHasKey o "render_engine".data ||
  whiteboardTypeTag (jGet o "type".data)

/-- Acceptance test of the regex-candidate loop (`agent.py` lines 932-938). -/
def validCandidate (o : JObj) : Bool :=
  jHasKey o "type".data || jHasKey o "render_engine".data ||
  whiteboardTypeTag (jGet o "type".data) ||
  jHasKey o "specifications".data || jHasKey o "instructions".data

/-- Does `\}\s*``` ` close a fenced capture beginning `L` characters into
`rest` (the text after the opening brace)? -/
def fenceCloseOk (rest : Str) (L : Nat) : Bool :=
  match rest.drop L with
  | '}' :: tl => "```".data.isPrefixOf (tl.dropWhile isPySpace)
  | _ => false

/-- `re.findall` for the fenced-block patterns: at each occurrence of `tag`,
`\s*` is forced to the maximal whitespace run (the next char must be `{`), the
lazy `.*?` takes the least length whose closing brace is followed by
`\s*` and three backticks, and scanning resumes after the whole match. -/
def fenceScanAux (tag text : Str) : Nat → Nat → List Str
  | 0, _ => []
  | fuel + 1, cur =>
    match findFrom tag text cur with
    | none => []
    | some i =>
      let afterTag := i + tag.length
      let restA := text.drop afterTag
      let wsLen := (restA.takeWhile isPySpace).length
      match restA.drop wsLen with
      | '{' :: rest =>
        match (List.range (rest.length + 1)).find? (fun L => fenceCloseOk rest L) with
        | some L =>
          let cap := '{' :: (rest.take L ++ ['}'])
          let tl := rest.drop (L + 1)
          let ws2 := (tl.takeWhile isPySpace).length
          let endPos := afterTag + wsLen + 1 + L + 1 + ws2 + 3
          cap :: fenceScanAux tag text fuel endPos
        | none => fenceScanAux tag text fuel (i + 1)
      | _ => fenceScanAux tag text fuel (i + 1)

def fenceScan (tag text : Str) : List Str :=
  fenceScanAux tag text (text.length + 1) 0

/-- Length of the run of non-brace characters (`[^{}]*` is forced maximal). -/
def nonBraceRun (s : Str) : Nat :=
  (s.takeWhile (fun c => !(c = '{' || c = '}'))).length

/-- Match of `[^{}]*(?:\{[^{}]*\}[^{}]*)*\}` on the text after an opening
brace; returns how many characters it consumes (closing brace included).
The pattern closes only braces nested at most one level deep. -/
def braceMatchAux : Nat → Str → Option Nat
  | 0, _ => none
  | fuel + 1, s =>
    let n := nonBraceRun s
    match s.drop n with
    | '}' :: _ => some (n + 1)
    | '{' :: r2 =>
      let m := nonBraceRun r2
      match r2.drop m with
      | '}' :: r4 =>
        match braceMatchAux fuel r4 with
        | some k => some (n + 1 + m + 1 + k)
        | none => none
      | _ => none
    | _ => none

/-- `re.findall(r'\{[^{}]*(?:\{[^{}]*\}[^{}]*)*\}', text)`. -/
def braceScanAux (text : Str) : Nat → Nat → List Str
  | 0, _ => []
  | fuel + 1, cur =>
    match findFrom "\x7b".data text cur with
    | none => []
    | some i =>
      match braceMatchAux (text.length + 1) (text.drop (i + 1)) with
      | some k =>
        ('{' :: ((text.drop (i + 1)).take k)) :: braceScanAux text fuel (i + 1 + k)
      | none => braceScanAux text fuel (i + 1)

def braceScan (text : Str) : List Str :=
  braceScanAux text (text.length + 1) 0

/-- The candidate loop (`agent.py` lines 926-942): strip, `json.loads`, accept
the first dict passing `validCandidate`. -/
def firstValidCandidate (ms : List Str) : Option JObj :=
  ms.findSome? (fun m =>
    match pyJsonLoads (pyStrip m) with
    | some (.jobj o) => if validCandidate o then some o else none
    | _ => none)

/-- `extract_whiteboard_tool_output` (`agent.py` lines 889-949).  Returns the
parsed payload dict, or `none` (the trailing keyword warning only prints). -/
def extract_whiteboard_tool_output (text : Str) : Option JObj :=
  if text = [] then none
  else
    let direct : Option JObj :=
      match pyJsonLoads (pyStrip text) with
      | some (.jobj o) => if validDirect o then some o else none
      | _ => none
    match direct with
    | some o => some o
    | none =>
      let ms1 := fenceScan "```json".data text
      let ms2 := if ms1 = [] then fenceScan "```".data text else ms1
      let ms3 := if ms2 = [] then braceScan text else ms2
      firstValidCandidate ms3

/-! ## Format-error salvage (`agent.py`, `study_help` lines 764-815)

On a crew error whose lowered message contains `parsing`, `invalid format` or
`retry`, the code searches the message for
`thought:\s*(.+?)(?:\n\n|final answer|action:|$)` (IGNORECASE, DOTALL),
cleans the capture with two `re.sub` calls, and either answers with the
fragment (if longer than 10 characters) or returns a fixed failure. -/

/-- End-of-string anchor `$` without MULTILINE: end of text, or just before a
final newline. -/
def dollarAt (s : Str) (p : Nat) : Bool :=
  decide (p = s.length) || (decide (p + 1 = s.length) && decide (s.drop p = ['\n']))

/-- The terminator alternation `(?:\n\n|final answer|action:|$)` at position `p`. -/
def termAt (s : Str) (p : Nat) : Bool :=
  "\n\n".data.isPrefixOf (s.drop p) || ciPrefix "final answer".data (s.drop p) ||
  ciPrefix "action:".data (s.drop p) || dollarAt s p

/-- Attempt of the thought pattern at a fixed occurrence of `thought:`: the
greedy `\s*` tries the longest whitespace run first, the lazy `(.+?)` the
shortest non-empty capture first. -/
def thoughtMatchAt (s : Str) (tPos : Nat) : Option Str :=
  let start := tPos + 8
  let wsMax := ((s.drop start).takeWhile isPySpace).length
  ((List.range (wsMax + 1)).map (fun k => wsMax - k)).findSome? (fun w =>
    let capStart := start + w
    ((List.range (s.length - capStart)).map (fun L => L + 1)).findSome? (fun L =>
      if termAt s (capStart + L) then some ((s.drop capStart).take L) else none))

/-- `re.search(r'thought:\s*(.+?)(?:\n\n|final answer|action:|$)', s, I | DOTALL)`,
returning `group(1)`: leftmost occurrence of `thought:` whose tail matches. -/
def thoughtSearch (s : Str) : Option Str :=
  (List.range (s.length + 1)).findSome? (fun i =>
    if ciPrefix "thought:".data (s.drop i) then thoughtMatchAt s i else none)

/-- `re.sub(r'i did it wrong.*?invalid format.*?', '', s, I | DOTALL)`: each
match runs from an occurrence of the first marker to the end of the nearest
following occurrence of the second (the trailing lazy `.*?` matches nothing). -/
def removeWrongInvalidAux : Nat → Str → Str
  | 0, s => s
  | fuel + 1, s =>
    match findCIFrom "i did it wrong".data s 0 with
    | none => s
    | some i =>
      match findCIFrom "invalid format".data s (i + 14) with
      | none => s
      | some j => s.take i ++ removeWrongInvalidAux fuel (s.drop (j + 14))

def removeWrongInvalid (s : Str) : Str :=
  removeWrongInvalidAux (s.length + 1) s

/-- `re.sub(r'i missed.*?', '', s, I)`: the lazy tail matches nothing, so each
match is exactly the literal, case-insensitively, non-overlapping. -/
def removeIMissedAux : Nat → Str → Str
  | 0, s => s
  | fuel + 1, s =>
    match findCIFrom "i missed".data s 0 with
    | none => s
    | some i => s.take i ++ removeIMissedAux fuel (s.drop (i + 8))

def removeIMissed (s : Str) : Str :=
  removeIMissedAux (s.length + 1) s

/-- Lines 777-788: the salvaged fragment, when one of usable length exists. -/
def salvageFragment (errMsg : Str) : Option Str :=
  if strIn "thought:".data (lowerStr errMsg) then
    match thoughtSearch errMsg with
    | some cap =>
      let t1 := pyStrip cap
      let t2 := removeWrongInvalid t1
      let t3 := removeIMissed t2
      let t4 := pyStrip t3
      if t4 ≠ [] ∧ 10 < t4.length then some t4 else none
    | none => none
  else none

/-- Lines 767-769: the error counts as a format/parsing failure. -/
def formatIndicator (errMsg : Str) : Bool :=
  strIn "parsing".data (lowerStr errMsg) ||
  strIn "invalid format".data (lowerStr errMsg) ||
  strIn "retry".data (lowerStr errMsg)

structure AgentMsg where
  agent : Str
  message : Str
deriving DecidableEq, Repr

/-- `StudyHelpResponse` restricted to the fields the claims are about
(`visual_suggestions`, `whiteboard_data` and the wall-clock `execution_time`
are `None` on every path modelled here). -/
structure StudyHelpResp where
  success : Bool
  answer : Option Str := none
  agent_responses : Option (List AgentMsg) := none
  error : Option Str := none
deriving DecidableEq, Repr

def pleaseRephraseAnswer : Str :=
  "I encountered a formatting issue. Please try rephrasing your question.".data

def formatParsingError : Str := "Format parsing error".data

/-- The `except`-branch of `crew.kickoff()` (lines 766-815): `some` response
when the error is treated as a format error, `none` when it is re-raised. -/
def studyHelpOnCrewError (errMsg : Str) : Option StudyHelpResp :=
  if formatIndicator errMsg then
    some (match salvageFragment errMsg with
      | some frag =>
        { success := true, answer := some frag,
          agent_responses := some [⟨"assistant".data, frag⟩], error := none }
      | none =>
        { success := false, answer := some pleaseRephraseAnswer,
          agent_responses := none, error := some formatParsingError })
  else none

/-! ## Result normalizer (`agent.py`, `study_help` lines 951-1279)

The crew result is one of: a Python list, a Python dict, an object exposing
`tasks_output` (dict- or list-shaped), an object exposing only `raw`, any
other object (reached through `str(result)`), or `None`.  Task attribute
probes (`output`, `raw_output`, `result`, `final_output`) are modelled as
optional fields, `none` standing for an absent or `None` attribute. -/

structure TaskM where
  role : Str
  description : Str
  output : Option Str := none
  raw_output : Option Str := none
  result : Option Str := none
  final_output : Option Str := none
deriving DecidableEq, Repr

inductive TasksOut where
  | tdict (pairs : List (Str × Str))
  | tlist (items : List Str)
deriving DecidableEq, Repr

inductive RawResult where
  | pylist (items : List Str)
  | pydict (pairs : List (Str × Str))
  | obj (tasks_output : Option TasksOut) (raw : Option Str) (asString : Str)
  | pynone
deriving DecidableEq, Repr

/-- Python `repr` of a plain string (modelled for text without quotes,
backslashes or control characters, which is all the concrete cases use). -/
def pyReprStr (s : Str) : Str :=
  apos :: (s ++ [apos])

/-- Python `str` of a list of strings. -/
def pyStrList (items : List Str) : Str :=
  '[' :: (List.intercalate ", ".data (items.map pyReprStr) ++ [']'])

/-- Python `str` of a dict from strings to strings. -/
def pyStrDict (pairs : List (Str × Str)) : Str :=
  '{' :: (List.intercalate ", ".data
    (pairs.map (fun p => pyReprStr p.1 ++ ": ".data ++ pyReprStr p.2)) ++ ['}'])

/-- `str(result)` for each modelled result shape. -/
def pyStrOfResult : RawResult → Str
  | .pylist items => pyStrList items
  | .pydict pairs => pyStrDict pairs
  | .obj _ _ s => s
  | .pynone => "None".data

/-- `s.replace("`", "").strip()` — empty exactly when `s` is made of backticks
and whitespace only. -/
def backtickStripped (s : Str) : Str :=
  pyStrip (s.filter (fun c => decide (c ≠ backquote)))

def fenceStr : Str := [backquote, backquote, backquote]

/-- The running state: `agent_responses` and `main_answer`. -/
structure NState where
  responses : List AgentMsg
  main : Option Str
deriving DecidableEq, Repr

/-- `main_answer is None or main_answer.strip() == ""`. -/
def mainBlank (m : Option Str) : Bool :=
  match m with
  | none => true
  | some s => decide (pyStrip s = [])

/-- `tasks[i].agent.role if i < len(tasks) ... else "Expert"`. -/
def roleAt (tasks : List TaskM) (i : Nat) : Str :=
  match tasks.get? i with
  | some t => t.role
  | none => "Expert".data

/-- One step of the list-shaped loops: append the stringified item under the
positional role; the first item whose agent name contains `"Expert"` becomes
the main answer. -/
def listStep (tasks : List TaskM) (st : NState) (p : Nat × Str) : NState :=
  ⟨st.responses ++ [⟨roleAt tasks p.1, p.2⟩],
   if st.main.isNone && strIn "Expert".data (roleAt tasks p.1) then some p.2 else st.main⟩

/-- List-shaped results (lines 957-978) and list-shaped `tasks_output` (lines
1153-1174). -/
def listFold (tasks : List TaskM) (st : NState) (items : List Str) : NState :=
  items.enum.foldl (listStep tasks) st

/-- One step of the attribute scan: take the value if present and truthy. -/
def probeOr (v : Option Str) (rest : Option Str) : Option Str :=
  match v with
  | some s => if s ≠ [] then some s else rest
  | none => rest

/-- Lines 993-1000: first attribute among `output`, `raw_output`, `result`,
`final_output` that exists and is truthy. -/
def probeAttr (t : TaskM) : Option Str :=
  probeOr t.output (probeOr t.raw_output (probeOr t.result (probeOr t.final_output none)))

/-- Dict branch, task-probing loop (lines 991-1023): fence-free outputs are
appended when not already present; `main_answer` takes the first such output. -/
def probeStep (st : NState) (t : TaskM) : NState :=
  match probeAttr t with
  | none => st
  | some v =>
    if pyStrip v ≠ [] ∧ pyStrip v ≠ fenceStr ∧ backtickStripped (pyStrip v) ≠ [] then
      ⟨if st.responses.any (fun r => decide (r.message = pyStrip v)) then st.responses
        else st.responses ++ [⟨t.role, pyStrip v⟩],
       if mainBlank st.main then some (pyStrip v) else st.main⟩
    else st

/-- Agent-name resolution of the dict item loop (lines 1072-1079). -/
def dictRoleFor (tasks : List TaskM) (desc : Str) : Str :=
  match tasks.find? (fun t => decide (desc = t.description) || strIn desc t.description) with
  | some t => t.role
  | none => "Assistant".data

/-- Dict branch, item loop (lines 1071-1113): empty and fence-only values are
skipped, appends are deduplicated by exact text, `main_answer` takes any
non-empty value when still blank. -/
def dictStep (tasks : List TaskM) (st : NState) (p : Str × Str) : NState :=
  if pyStrip p.2 = [] ∨ pyStrip p.2 = fenceStr ∨ backtickStripped (pyStrip p.2) = [] then st
  else
    ⟨if st.responses.any (fun r => decide (r.message = pyStrip p.2)) then st.responses
      else st.responses ++ [⟨dictRoleFor tasks p.1, pyStrip p.2⟩],
     if mainBlank st.main then some (pyStrip p.2) else st.main⟩

/-- Agent-name resolution of the `tasks_output` dict loop (lines 1129-1133). -/
def tasksOutRoleFor (tasks : List TaskM) (desc : Str) : Str :=
  match tasks.find? (fun t => decide (t.description = desc) || strIn desc t.description) with
  | some t => t.role
  | none => "Expert".data

/-- Dict-shaped `tasks_output` (lines 1127-1152): appended without any
filtering or deduplication. -/
def tasksOutDictStep (tasks : List TaskM) (st : NState) (p : Str × Str) : NState :=
  ⟨st.responses ++ [⟨tasksOutRoleFor tasks p.1, p.2⟩],
   if st.main.isNone && strIn "Expert".data (tasksOutRoleFor tasks p.1) then some p.2 else st.main⟩

/-- Fallback task probe (lines 1192-1222): `output`, else `result`, else
`raw_output`; appended without fence filtering or deduplication. -/
def fallbackAttr (t : TaskM) : Option Str :=
  match t.output with
  | some s => some s
  | none =>
    match t.result with
    | some s => some s
    | none => t.raw_output

def fallbackTaskStep (st : NState) (t : TaskM) : NState :=
  match fallbackAttr t with
  | none => st
  | some v =>
    if v ≠ [] ∧ pyStrip v ≠ [] then
      ⟨st.responses ++ [⟨t.role, pyStrip v⟩],
       if st.main.isNone && strIn "Expert".data t.role then some (pyStrip v) else st.main⟩
    else st

/-- Line 1256 check: `hasattr(task, 'output') and task.output` plus the fence
guard of lines 1257-1258; gives the appended text of the first passing task. -/
def lateTaskOutput (tasks : List TaskM) : Option (TaskM × Str) :=
  tasks.findSome? (fun t =>
    match t.output with
    | some v =>
      if v ≠ [] then
        if pyStrip v ≠ [] ∧ pyStrip v ≠ fenceStr ∧ backtickStripped (pyStrip v) ≠ [] then
          some (t, pyStrip v)
        else none
      else none
    | none => none)

/-- Python `max(rs, key=len of message)`: first entry of maximal length. -/
def maxByLen (rs : List AgentMsg) : AgentMsg :=
  match rs with
  | [] => ⟨[], []⟩
  | h :: t => t.foldl (fun a b => if b.message.length > a.message.length then b else a) h

def noAnswerPlaceholder : Str :=
  "I processed your question, but couldn\x27t extract a clear answer. The crew executed successfully.".data

/-- Blocks 1-3 (lines 957-1174): the shape-directed extraction. -/
def nBlockShape (tasks : List TaskM) (result : RawResult) : NState :=
  match result with
  | .pylist items => listFold tasks ⟨[], none⟩ items
  | .pydict pairs => pairs.foldl (dictStep tasks) (tasks.foldl probeStep ⟨[], none⟩)
  | .obj (some (.tdict pairs)) _ _ => pairs.foldl (tasksOutDictStep tasks) ⟨[], none⟩
  | .obj (some (.tlist items)) _ _ => listFold tasks ⟨[], none⟩ items
  | _ => ⟨[], none⟩

/-- Block 4 (lines 1176-1189): the `raw` attribute, used only when nothing
was produced yet. -/
def nBlockRaw (tasks : List TaskM) (result : RawResult) (st : NState) : NState :=
  if st.responses.isEmpty then
    match result with
    | .obj _ (some r) _ =>
      if r ≠ [] then
        ⟨[⟨roleAt tasks 0, r⟩], if st.main.isNone then some r else st.main⟩
      else st
    | _ => st
  else st

/-- Block 5 (lines 1191-1222): fallback task-attribute probe. -/
def nBlockFallback (tasks : List TaskM) (st : NState) : NState :=
  if st.responses.isEmpty && !tasks.isEmpty then tasks.foldl fallbackTaskStep st else st

/-- Block 6 (lines 1224-1246): stringified whole result, as only entry when
nothing was produced, as an extra `Assistant` entry and the main answer
otherwise. -/
def nBlockStrResult (tasks : List TaskM) (result : RawResult) (st : NState) : NState :=
  if st.responses.isEmpty then
    if pyStrOfResult result ≠ [] ∧ pyStrip (pyStrOfResult result) ≠ [] then
      ⟨[⟨roleAt tasks 0, pyStrOfResult result⟩],
       if st.main.isNone then some (pyStrOfResult result) else st.main⟩
    else st
  else if result ≠ .pynone then
    if pyStrip (pyStrOfResult result) ≠ [] ∧ pyStrip (pyStrOfResult result) ≠ fenceStr ∧
       backtickStripped (pyStrip (pyStrOfResult result)) ≠ [] then
      ⟨st.responses ++ [⟨"Assistant".data, pyStrip (pyStrOfResult result)⟩],
       some (pyStrip (pyStrOfResult result))⟩
    else st
  else st

/-- Block 7 (lines 1248-1250): first message as main answer. -/
def nBlockFirstMsg (st : NState) : NState :=
  match st.responses with
  | [] => st
  | r :: _ => if st.main.isNone then ⟨st.responses, some r.message⟩ else st

/-- Block 8 (lines 1252-1266): first non-fence `task.output`. -/
def nBlockLateOutput (tasks : List TaskM) (st : NState) : NState :=
  if mainBlank st.main then
    match lateTaskOutput tasks with
    | some (t, os) =>
      ⟨if st.responses.any (fun r => decide (r.message = os)) then st.responses
       else st.responses ++ [⟨t.role, os⟩], some os⟩
    | none => st
  else st

/-- Block 9 (lines 1268-1273): longest message. -/
def nBlockLongest (st : NState) : NState :=
  if mainBlank st.main && !st.responses.isEmpty then
    ⟨st.responses, some (maxByLen st.responses).message⟩
  else st

/-- Block 10 (lines 1275-1279): fixed placeholder. -/
def nBlockPlaceholder (st : NState) : NState :=
  if mainBlank st.main then ⟨st.responses, some noAnswerPlaceholder⟩ else st

/-- The full normalizer, blocks in source order (lines 957-1279). -/
def normalizeCore (tasks : List TaskM) (result : RawResult) : NState :=
  nBlockPlaceholder (nBlockLongest (nBlockLateOutput tasks (nBlockFirstMsg
    (nBlockStrResult tasks result (nBlockFallback tasks
      (nBlockRaw tasks result (nBlockShape tasks result)))))))

/-! ## Agent roster and composer (`example_agents.py`, `agent.py` lines 622-726)

`create_classroom_crew(subject, agents_config)` builds five agents whose role
strings depend only on `subject` (`agents_config` tunes personalities and
backstories, not roles).  `study_help` aliases short role names, and in
discussion mode orders agents as primary-first followed by the fixed
professor/expert/challenger/student/connector sequence, deduplicated. -/

structure AgentR where
  role : Str
deriving DecidableEq, Repr

structure CrewR where
  agents : List AgentR
deriving DecidableEq, Repr

/-- Python `str.title()` (ASCII): a letter is uppercased after a non-letter,
lowercased after a letter. -/
def pyTitleAux : Bool → Str → Str
  | _, [] => []
  | prevAlpha, c :: t =>
    let c2 := if c.isAlpha then (if prevAlpha then lowerChar c else upperChar c) else c
    c2 :: pyTitleAux c.isAlpha t

def pyTitle (s : Str) : Str := pyTitleAux false s

def professorAgent (subject : Str) : AgentR := ⟨"Socratic Mentor for ".data ++ pyTitle subject⟩

def expertAgent (subject : Str) : AgentR := ⟨pyTitle subject ++ " Problem Analyst".data⟩

def challengerAgent : AgentR := ⟨"Critical Thinker".data⟩

def studentAgent : AgentR := ⟨"Peer Student".data⟩

def connectorAgent : AgentR := ⟨"Interdisciplinary Connector".data⟩

/-- `create_classroom_crew` roster (`example_agents.py` lines 597-662). -/
def create_classroom_crew (subject : Str) : CrewR :=
  ⟨[professorAgent subject, expertAgent subject, challengerAgent, studentAgent, connectorAgent]⟩

/-- The parameter names `create_classroom_crew` accepts
(`example_agents.py` lines 597-600). -/
def create_classroom_crew_params : List Str :=
  ["subject".data, "agents_config".data]

/-- The keyword arguments `study_help` passes at `agent.py` lines 642/680/729. -/
def study_help_crew_call_kwargs : List Str :=
  ["subject".data, "available_agent_roles".data]

/-- A Python keyword call succeeds only when every keyword names a parameter. -/
def kwargsAccepted (params kwargs : List Str) : Bool :=
  kwargs.all (fun k => params.any (fun p => decide (p = k)))

/-- `find_agent_by_role` (`example_agents.py` lines 665-678): first agent whose
role contains the given substring case-insensitively. -/
def find_agent_by_role (crew : CrewR) (role_contains : Str) : Option AgentR :=
  if crew.agents.isEmpty then none
  else crew.agents.find? (fun a => strIn (lowerStr role_contains) (lowerStr a.role))

/-- Primary-agent selection of `add_user_question_flow`
(`example_agents.py` lines 701-706): an unset preferred role is passed as `""`. -/
def addUserQuestionPrimary (crew : CrewR) (preferred : Option Str) : Option AgentR :=
  match find_agent_by_role crew (preferred.getD []) with
  | some a => some a
  | none =>
    match find_agent_by_role crew "Interdisciplinary Connector".data with
    | some a => some a
    | none =>
      match find_agent_by_role crew "Problem Analyst".data with
      | some a => some a
      | none => find_agent_by_role crew "Socratic Mentor".data

/-- Short-name alias table (`agent.py` lines 622-628). -/
def agent_role_map : List (Str × Str) :=
  [("expert".data, "Problem Analyst".data),
   ("professor".data, "Socratic Mentor".data),
   ("challenger".data, "Critical Thinker".data),
   ("student".data, "Peer Student".data),
   ("connector".data, "Interdisciplinary Connector".data)]

/-- Lines 631-633: alias resolution; empty or unknown names pass through. -/
def resolveActualRole (preferred : Option Str) : Option Str :=
  match preferred with
  | none => none
  | some p =>
    if p ≠ [] then
      match agent_role_map.find? (fun q => decide (q.1 = lowerStr p)) with
      | some q => some q.2
      | none => some p
    else some p

/-- Lines 697-701: the primary agent, when a non-empty resolved role finds one. -/
def discussionPrimary (crew : CrewR) (actual : Option Str) : Option AgentR :=
  match actual with
  | some a => if a ≠ [] then find_agent_by_role crew a else none
  | none => none

/-- Line 704-706 loop body: append an agent found and not yet listed. -/
def orderStep (acc : List AgentR) (x : Option AgentR) : List AgentR :=
  match x with
  | some ag => if acc.any (fun b => decide (b = ag)) then acc else acc ++ [ag]
  | none => acc

/-- The five roster lookups of lines 688-692, in source order. -/
def rosterLookups (crew : CrewR) : List (Option AgentR) :=
  [find_agent_by_role crew "Socratic Mentor".data,
   find_agent_by_role crew "Problem Analyst".data,
   find_agent_by_role crew "Critical Thinker".data,
   find_agent_by_role crew "Peer Student".data,
   find_agent_by_role crew "Interdisciplinary Connector".data]

/-- Line 697-701 again: the starting accumulator of the ordering loop. -/
def primaryBase (crew : CrewR) (actual : Option Str) : List AgentR :=
  match discussionPrimary crew actual with
  | some p => [p]
  | none => []

/-- Discussion-mode agent ordering (`agent.py` lines 686-710). -/
def discussionAgentOrder (crew : CrewR) (actual : Option Str) : List AgentR :=
  if ((rosterLookups crew).foldl orderStep (primaryBase crew actual)).isEmpty then
    (rosterLookups crew).filterMap id
  else (rosterLookups crew).foldl orderStep (primaryBase crew actual)

/-- One discussion-mode outcome of `study_help`: either the error response of
the outer handler (lines 1333-1340), or a reach of `crew.kickoff()` with the
composed task roles (lines 712-765). -/
inductive DiscussionOutcome where
  | errorResult (resp : StudyHelpResp)
  | kickoff (taskRoles : List Str)
deriving DecidableEq, Repr

def typeErrorDetail : Str :=
  "create_classroom_crew() got an unexpected keyword argument \x27available_agent_roles\x27".data

/-- `crew = create_classroom_crew(subject=subject, available_agent_roles=...)`
(`agent.py` line 680): raises `TypeError` because the callee has no such
parameter. -/
def call_create_classroom_crew (subject : Str) (_availableRoles : Option (List Str)) :
    Except Str CrewR :=
  if kwargsAccepted create_classroom_crew_params study_help_crew_call_kwargs then
    .ok (create_classroom_crew subject)
  else .error typeErrorDetail

/-- The discussion path of `study_help` up to the gateway call: the crew
creation, alias resolution and task composition, with any raised error
surfacing through the outer `except` as a `success=False` response. -/
def study_help_discussion (subject : Str) (preferred : Option Str)
    (availableRoles : Option (List Str)) : DiscussionOutcome :=
  match call_create_classroom_crew subject availableRoles with
  | .error e => .errorResult ⟨false, none, none, some e⟩
  | .ok crew =>
    .kickoff ((discussionAgentOrder crew (resolveActualRole preferred)).map (fun a => a.role))

/-! ## Whiteboard visual tool (`whiteboard_tool.py`)

`WhiteboardVisualTool._run` defensively re-parses a JSON-quoted `topic`,
builds a `visualization_spec` dict per content type, then attaches
`render_engine` / `expression` / `desmos`; the flexible wrapper forwards a
JSON payload string or treats it as a Desmos expression.  Float printing is
not modelled (`pyReprJson` of a fractional number is schematic); every payload
the claims concern holds strings and booleans. -/

def jsonTruthy : Json → Bool
  | .jnull => false
  | .jbool b => b
  | .jnum m _ => decide (m ≠ 0)
  | .jstr s => !s.isEmpty
  | .jarr l => !l.isEmpty
  | .jobj l => !l.isEmpty

def intToStr (n : Int) : Str :=
  (toString n).data

mutual

/-- Python `repr` of a value parsed from JSON. -/
def pyReprJson : Json → Str
  | .jnull => "None".data
  | .jbool true => "True".data
  | .jbool false => "False".data
  | .jnum m e => if e = 0 then intToStr m else intToStr m ++ 'e' :: intToStr e
  | .jstr s => pyReprStr s
  | .jarr l => '[' :: (List.intercalate ", ".data (pyReprJsonList l) ++ [']'])
  | .jobj l => '{' :: (List.intercalate ", ".data (pyReprJsonMembers l) ++ ['}'])

def pyReprJsonList : List Json → List Str
  | [] => []
  | v :: t => pyReprJson v :: pyReprJsonList t

def pyReprJsonMembers : List (Str × Json) → List Str
  | [] => []
  | (k, v) :: t => (pyReprStr k ++ ": ".data ++ pyReprJson v) :: pyReprJsonMembers t

end

/-- Python `str` of a value parsed from JSON. -/
def pyStrJson : Json → Str
  | .jstr s => s
  | v => pyReprJson v

/-- `"true"/"1"/"yes"/"y"` test for a string-valued `desmos` flag (line 93). -/
def desmosStrFlag (s : Str) : Bool :=
  decide (pyStrip (lowerStr s) = "true".data) || decide (pyStrip (lowerStr s) = "1".data) ||
  decide (pyStrip (lowerStr s) = "yes".data) || decide (pyStrip (lowerStr s) = "y".data)

/-- Defensive re-parse of a string `topic` (lines 83-98): when it parses to a
dict, the fields are pulled out of it, the originals serving as defaults. -/
def whiteboardDefensive (topic content_type context : Str) (desmos : Bool) :
    Json × Json × Json × Bool :=
  let parsed := match pyStrip topic with
    | '{' :: _ => pyJsonLoads topic
    | _ => none
  match parsed with
  | some (.jobj o) =>
    let t := (jGet o "topic".data).getD (.jstr topic)
    let ct := (jGet o "content_type".data).getD (.jstr content_type)
    let cx := (jGet o "context".data).getD (.jstr context)
    let d := if jHasKey o "desmos".data then
        match jGet o "desmos".data with
        | some (.jstr dv) => desmosStrFlag dv
        | some v => jsonTruthy v
        | none => false
      else desmos
    (t, ct, cx, d)
  | _ => (.jstr topic, .jstr content_type, .jstr context, desmos)

/-- Fixed `specifications` sub-dicts of the five branches (lines 100-160). -/
def graphSpecs : JObj :=
  [("axes".data, .jstr "Include x and y axes with appropriate labels".data),
   ("grid".data, .jstr "Show grid lines for reference".data),
   ("annotations".data, .jstr "Mark key points (intercepts, roots, turning points) clearly".data)]

def diagramSpecs : JObj :=
  [("components".data, .jstr "Identify all key components and their relationships".data),
   ("labels".data, .jstr "Label all important parts clearly".data),
   ("flow".data, .jstr "Show direction/flow if applicable".data)]

def conceptMapSpecs : JObj :=
  [("nodes".data, .jstr "Identify key concepts as nodes".data),
   ("connections".data, .jstr "Show relationships between concepts with labeled edges".data),
   ("hierarchy".data, .jstr "Organize concepts by importance or category".data)]

def stepSpecs : JObj :=
  [("steps".data, .jstr "Break down into numbered steps".data),
   ("annotations".data, .jstr "Add visual annotations to each step".data),
   ("highlight".data, .jstr "Highlight important operations or transformations".data)]

def genericSpecs : JObj :=
  [("elements".data, .jstr "Include all relevant visual elements".data),
   ("labels".data, .jstr "Add clear labels and annotations".data)]

/-- `{context if context else default}` inside the instruction f-strings. -/
def ctxOrDefault (cx : Json) (dflt : Str) : Str :=
  if jsonTruthy cx then pyStrJson cx else dflt

/-- Python `value == "literal"` on a parsed JSON value. -/
def jEqStr (v : Json) (s : Str) : Bool :=
  match v with
  | .jstr t => decide (t = s)
  | _ => false

/-- The `visualization_spec` dict before render metadata (lines 100-160). -/
def visualizationSpecBase (t ct cx : Json) : JObj :=
  let topicS := pyStrJson t
  if jEqStr ct "graph".data then
    [("type".data, .jstr "graph".data),
     ("description".data, .jstr ("Graph visualization for: ".data ++ topicS)),
     ("specifications".data, .jobj graphSpecs),
     ("instructions".data, .jstr ("Create a graph that visually represents ".data ++ topicS ++ ". ".data ++
        ctxOrDefault cx "Highlight important features and relationships.".data))]
  else if jEqStr ct "diagram".data then
    [("type".data, .jstr "diagram".data),
     ("description".data, .jstr ("Diagram visualization for: ".data ++ topicS)),
     ("specifications".data, .jobj diagramSpecs),
     ("instructions".data, .jstr ("Create a diagram showing ".data ++ topicS ++ ". ".data ++
        ctxOrDefault cx "Use clear visual hierarchy and connections.".data))]
  else if jEqStr ct "concept_map".data then
    [("type".data, .jstr "concept_map".data),
     ("description".data, .jstr ("Concept map for: ".data ++ topicS)),
     ("specifications".data, .jobj conceptMapSpecs),
     ("instructions".data, .jstr ("Create a concept map for ".data ++ topicS ++ ". ".data ++
        ctxOrDefault cx "Show relationships and connections clearly.".data))]
  else if jEqStr ct "step_by_step".data then
    [("type".data, .jstr "step_by_step".data),
     ("description".data, .jstr ("Step-by-step visual solution for: ".data ++ topicS)),
     ("specifications".data, .jobj stepSpecs),
     ("instructions".data, .jstr ("Create a step-by-step visual solution for ".data ++ topicS ++ ". ".data ++
        ctxOrDefault cx "Make each step clear and visually distinct.".data))]
  else
    [("type".data, ct),
     ("description".data, .jstr ("Visual representation for: ".data ++ topicS)),
     ("specifications".data, .jobj genericSpecs),
     ("instructions".data, .jstr ("Create a ".data ++ pyStrJson ct ++ " visualization for ".data ++ topicS ++ ". ".data ++
        ctxOrDefault cx "Make it clear and educational.".data))]

/-- `visualization_spec.get("type") in ["graph", "equation"]` (line 163). -/
def desmosEligible (v : Option Json) : Bool :=
  match v with
  | some (.jstr s) => decide (s = "graph".data) || decide (s = "equation".data)
  | _ => false

/-- Lines 162-173: attach `render_engine`, `expression`, `desmos` and return. -/
def whiteboardToolRunCore (t ct cx : Json) (desmos : Bool) : JObj :=
  if desmos && desmosEligible (jGet (visualizationSpecBase t ct cx) "type".data) then
    visualizationSpecBase t ct cx ++
      [("render_engine".data, .jstr "desmos".data),
       ("expression".data, .jstr (pyStrJson t)),
       ("desmos".data, .jbool true)]
  else
    visualizationSpecBase t ct cx ++
      [("render_engine".data, .jstr "whiteboard".data),
       ("expression".data, .jnull),
       ("desmos".data, .jbool false)]

/-- `WhiteboardVisualTool._run` on string arguments (the declared schema). -/
def whiteboardToolRun (topic content_type context : Str) (desmos : Bool) : JObj :=
  let (t, ct, cx, d) := whiteboardDefensive topic content_type context desmos
  whiteboardToolRunCore t ct cx d

/-- `_run` when the flexible wrapper forwards raw JSON values: the defensive
block only fires for a string topic (`isinstance(topic, str)`, line 84). -/
def whiteboardRunDispatch (t ct cx : Json) (desmos : Bool) : JObj :=
  match t, ct, cx with
  | .jstr ts, .jstr cts, .jstr cxs => whiteboardToolRun ts cts cxs desmos
  | _, _, _ => whiteboardToolRunCore t ct cx desmos

/-- `WhiteboardVisualToolFlexible._run` (lines 192-208). -/
def whiteboardFlexRun (payload : Str) : JObj :=
  let data := match pyStrip payload with
    | '{' :: _ => pyJsonLoads payload
    | _ => none
  match data with
  | some (.jobj o) =>
    let t := (jGet o "topic".data).getD (.jstr [])
    let ct := (jGet o "content_type".data).getD (.jstr "graph".data)
    let cx := (jGet o "context".data).getD (.jstr [])
    let d := (jGet o "desmos".data).getD (.jbool false)
    whiteboardRunDispatch t ct cx (jsonTruthy d)
  | _ => whiteboardToolRun payload "graph".data [] true

/-! ## Discussion-mode truncation (`agent.py`, `generate_response` lines 1569-1587) -/

/-- Python `str.split()`: split on whitespace runs, no empty tokens. -/
def pySplit : Str → List Str
  | [] => []
  | c :: t =>
    if isPySpace c then pySplit t
    else ((c :: t).takeWhile (fun x => !isPySpace x)) ::
         pySplit ((c :: t).dropWhile (fun x => !isPySpace x))
termination_by s => s.length
decreasing_by
  · simp only [List.length_cons]; omega
  · rename_i h
    have hc : isPySpace c = false := by simpa using h
    simp only [List.dropWhile_cons, hc, Bool.not_false, if_pos, List.length_cons]
    exact Nat.lt_succ_of_le (List.dropWhile_sublist _).length_le

/-- Python `" ".join(words)`. -/
def joinSpace : List Str → Str
  | [] => []
  | [w] => w
  | w :: rest => w ++ ' ' :: joinSpace rest

/-- Lines 1575-1578 / 1583-1586: over 100 words, keep the first 100 and
append an ellipsis. -/
def discussionTruncateText (message : Str) : Str :=
  let words := pySplit message
  if words.length > 100 then joinSpace (words.take 100) ++ "...".data
  else message

/-- Lines 1570-1579: each agent message with a truthy `message` is truncated. -/
def discussionTruncateResponses (rs : List AgentMsg) : List AgentMsg :=
  rs.map (fun r => if r.message ≠ [] then { r with message := discussionTruncateText r.message } else r)

/-! ## Direct-mode gateway call (`agent_runner.py`, `run_agent` lines 239-262, 423-446)

Inside a running event loop the call is submitted to a
`ThreadPoolExecutor` and awaited with `future.result(timeout=300)`.  A
timeout raises `concurrent.futures.TimeoutError`, which is re-raised at line
262 and lands in the outer handler at line 423, producing the error JSON of
lines 426-436 with `error = str(e) = ""`. -/

inductive WorkerOutcome where
  | completed (resp : StudyHelpResp)
  | timedOut
deriving DecidableEq, Repr

/-- The `json_output` / `error_json` dict fields the claims are about. -/
structure RunAgentResult where
  success : Bool
  answer : Option Str
  agent_responses : Option (List AgentMsg)
  error : Option Str
deriving DecidableEq, Repr

/-- `future.result(timeout=300)` — the worker-thread bound in seconds. -/
def run_agent_direct_timeout_seconds : Nat := 300

/-- `run_agent(mode="direct")` from inside a running loop, as a function of
the worker outcome. -/
def run_agent_direct_in_loop (outcome : WorkerOutcome) : RunAgentResult :=
  match outcome with
  | .completed resp =>
    { success := resp.success, answer := resp.answer,
      agent_responses := resp.agent_responses,
      error := if !resp.success && (match resp.error with
                 | some e => !e.isEmpty
                 | none => false) then resp.error else none }
  | .timedOut =>
    { success := false, answer := none, agent_responses := none, error := some [] }

/-- The packaged §4.6 recoverable-error result: what `run_agent` returns when
`study_help` survives a format error without salvage. -/
def packagedRecoverableResult : RunAgentResult :=
  run_agent_direct_in_loop (.completed
    { success := false, answer := some pleaseRephraseAnswer,
      agent_responses := none, error := some formatParsingError })

/-! ## Claim-side predicates and concrete instances -/

/-- The spec's whiteboard payload wire shape, for one payload object: a
recognized `render_engine`, at least one of the four marker keys, and an
`expression` that is a string exactly on the Desmos engine, `null` on the
whiteboard engine. -/
def payloadShapeOk (o : JObj) : Prop :=
  (jGet o "render_engine".data = some (.jstr "desmos".data) ∨
   jGet o "render_engine".data = some (.jstr "whiteboard".data)) ∧
  (jHasKey o "type".data = true ∨ jHasKey o "render_engine".data = true ∨
   jHasKey o "specifications".data = true ∨ jHasKey o "instructions".data = true) ∧
  (jGet o "render_engine".data = some (.jstr "desmos".data) →
     ∃ s, jGet o "expression".data = some (.jstr s)) ∧
  (jGet o "render_engine".data = some (.jstr "whiteboard".data) →
     jGet o "expression".data = some .jnull)

/-- State of the dict branch alone (probe loop then item loop). -/
def dictNState (tasks : List TaskM) (pairs : List (Str × Str)) : NState :=
  pairs.foldl (dictStep tasks) (tasks.foldl probeStep ⟨[], none⟩)

/-- Guard satisfied by every message the dict branch appends. -/
def fenceFreeText (s : Str) : Prop :=
  s ≠ [] ∧ s ≠ fenceStr ∧ backtickStripped s ≠ []

/-- C1 counterexample text: prose around a payload object nested three deep. -/
def c1Text : Str :=
  "foo \x7b\"type\": \x7b\"a\": \x7b\"b\": 1\x7d\x7d\x7d bar".data

/-- The parsable payload object embedded in `c1Text`. -/
def c1Payload : Str :=
  "\x7b\"type\": \x7b\"a\": \x7b\"b\": 1\x7d\x7d\x7d".data

/-- A fenced whiteboard payload, for the C1 witness. -/
def c1FencedText : Str :=
  "intro ```json\n\x7b\"type\": \"graph\"\x7d\n``` outro".data

/-- A crew error message carrying a salvageable reasoning fragment. -/
def c2Msg : Str :=
  "Invalid Format: I did it wrong. Thought: The derivative measures the rate of change of a function.\n\nAction: none".data

/-- The fragment the salvage heuristic recovers from `c2Msg`. -/
def c2Frag : Str :=
  "The derivative measures the rate of change of a function.".data

/-- Two discussion tasks whose roles do not contain `"Expert"`. -/
def c4Tasks : List TaskM :=
  [⟨"Socratic Mentor for General".data, "d1".data, none, none, none, none⟩,
   ⟨"General Problem Analyst".data, "d2".data, none, none, none, none⟩]

/-- The post-processing invariant of the dict branch: every appended message
survives backtick-stripping, and no two share their text. -/
def respInv (st : NState) : Prop :=
  (∀ m ∈ st.responses, backtickStripped m.message ≠ []) ∧
  (st.responses.map (fun r => r.message)).Nodup

/-! ## Helper lemmas -/

theorem jGet_some_hasKey {o : JObj} {k : Str} {v : Json} (h : jGet o k = some v) :
    jHasKey o k = true := by
  unfold jGet at h
  cases hf : o.reverse.find? (fun p => decide (p.1 = k)) with
  | none => rw [hf] at h; simp at h
  | some p =>
    have hm := List.mem_of_find?_eq_some hf
    have hp := List.find?_some hf
    unfold jHasKey
    rw [List.any_eq_true]
    exact ⟨p, List.mem_reverse.mp hm, hp⟩

theorem whiteboardTypeTag_hasKey {o : JObj}
    (h : whiteboardTypeTag (jGet o "type".data) = true) : jHasKey o "type".data = true := by
  cases hg : jGet o "type".data with
  | none => rw [hg] at h; simp [whiteboardTypeTag] at h
  | some v => exact jGet_some_hasKey hg

theorem validDirect_keys {o : JObj} (h : validDirect o = true) :
    jHasKey o "type".data = true ∨ jHasKey o "render_engine".data = true := by
  unfold validDirect at h
  simp only [Bool.or_eq_true] at h
  rcases h with (h | h) | h
  · exact Or.inl h
  · exact Or.inr h
  · exact Or.inl (whiteboardTypeTag_hasKey h)

theorem validCandidate_keys {o : JObj} (h : validCandidate o = true) :
    jHasKey o "type".data = true ∨ jHasKey o "render_engine".data = true ∨
    jHasKey o "specifications".data = true ∨ jHasKey o "instructions".data = true := by
  unfold validCandidate at h
  simp only [Bool.or_eq_true] at h
  rcases h with (((h | h) | h) | h) | h
  · exact Or.inl h
  · exact Or.inr (Or.inl h)
  · exact Or.inl (whiteboardTypeTag_hasKey h)
  · exact Or.inr (Or.inr (Or.inl h))
  · exact Or.inr (Or.inr (Or.inr h))

theorem firstValidCandidate_valid {ms : List Str} {o : JObj}
    (h : firstValidCandidate ms = some o) : validCandidate o = true := by
  unfold firstValidCandidate at h
  obtain ⟨m, _, hm⟩ := List.exists_of_findSome?_eq_some h
  cases hj : pyJsonLoads (pyStrip m) with
  | none => rw [hj] at hm; simp at hm
  | some v =>
    rw [hj] at hm
    cases v with
    | jobj o2 =>
      by_cases hv : validCandidate o2 = true
      · simp only [hv, if_true] at hm
        cases hm
        exact hv
      · simp only [hv] at hm
        simp at hm
    | jnull => simp at hm
    | jbool b => simp at hm
    | jnum m e => simp at hm
    | jstr s => simp at hm
    | jarr l => simp at hm

/-! ## Claim theorems -/

/-- C1 (corrected, amended): every payload `extract_whiteboard_tool_output`
returns carries at least one of the keys `type`, `render_engine`,
`specifications`, `instructions`; candidates are tried in the fixed strategy
order and the first validating object wins, but the converse direction of the
claim fails (see the counterexample): the balanced-brace strategy only matches
braces nested at most two deep, so a text can contain a parsable payload
object and still yield `None`. -/
theorem c1_extract_sound :
    ∀ (text : Str) (o : JObj), extract_whiteboard_tool_output text = some o →
      jHasKey o "type".data = true ∨ jHasKey o "render_engine".data = true ∨
      jHasKey o "specifications".data = true ∨ jHasKey o "instructions".data = true := by
  intro text o h
  unfold extract_whiteboard_tool_output at h
  by_cases ht : text = []
  · simp [ht] at h
  · simp only [ht, if_false, if_neg ht] at h
    cases hj : pyJsonLoads (pyStrip text) with
    | none =>
      rw [hj] at h
      exact validCandidate_keys (firstValidCandidate_valid h)
    | some v =>
      rw [hj] at h
      cases v with
      | jobj o2 =>
        by_cases hv : validDirect o2 = true
        · simp only [hv, if_true] at h
          cases h
          rcases validDirect_keys hv with h1 | h2
          · exact Or.inl h1
          · exact Or.inr (Or.inl h2)
        · simp only [hv] at h
          simp only [Bool.false_eq_true, if_false] at h
          exact validCandidate_keys (firstValidCandidate_valid h)
      | jnull => exact validCandidate_keys (firstValidCandidate_valid h)
      | jbool b => exact validCandidate_keys (firstValidCandidate_valid h)
      | jnum m e => exact validCandidate_keys (firstValidCandidate_valid h)
      | jstr s => exact validCandidate_keys (firstValidCandidate_valid h)
      | jarr l => exact validCandidate_keys (firstValidCandidate_valid h)

/-- C1 witness: a fenced payload is extracted, and the soundness theorem
applies to it. -/
theorem c1_extract_sound_witness :
    extract_whiteboard_tool_output c1FencedText = some [("type".data, Json.jstr "graph".data)] ∧
    (jHasKey [("type".data, Json.jstr "graph".data)] "type".data = true ∨
     jHasKey [("type".data, Json.jstr "graph".data)] "render_engine".data = true ∨
     jHasKey [("type".data, Json.jstr "graph".data)] "specifications".data = true ∨
     jHasKey [("type".data, Json.jstr "graph".data)] "instructions".data = true) :=
  ⟨rfl, c1_extract_sound c1FencedText _ rfl⟩

/-- C1 counterexample: `c1Text` contains the parsable JSON object `c1Payload`,
which carries the key `type`, yet the extractor returns `None` — the claimed
"if" direction fails on payloads nested deeper than the brace pattern reaches. -/
theorem c1_counterexample :
    extract_whiteboard_tool_output c1Text = none ∧
    strIn c1Payload c1Text = true ∧
    pyJsonLoads c1Payload =
      some (.jobj [("type".data, .jobj [("a".data, .jobj [("b".data, .jnum 1 0)])])]) ∧
    jHasKey [("type".data, (Json.jobj [("a".data, Json.jobj [("b".data, Json.jnum 1 0)])]))]
      "type".data = true :=
  ⟨rfl, rfl, rfl, rfl⟩

theorem salvage_length {msg f : Str} (h : salvageFragment msg = some f) : 10 < f.length := by
  unfold salvageFragment at h
  split at h
  · cases hts : thoughtSearch msg with
    | none => simp only [hts] at h; cases h
    | some cap =>
      simp only [hts] at h
      split at h
      · rename_i hcond
        cases h
        exact hcond.2
      · simp at h
  · simp at h

/-- C2 (confirmed): on a crew error flagged as a format/parsing failure, a
salvaged fragment (always longer than 10 characters) yields `success=True`
with the fragment as answer and as the single `assistant` message; with no
salvageable fragment the response is the fixed `success=False`,
please-rephrase answer and `error="Format parsing error"`.  Errors without
the format indicators are re-raised (`none`). -/
theorem c2_format_error_recovery (msg : Str) :
    (formatIndicator msg = false → studyHelpOnCrewError msg = none) ∧
    (formatIndicator msg = true →
      (∀ frag, salvageFragment msg = some frag →
        studyHelpOnCrewError msg =
          some ⟨true, some frag, some [⟨"assistant".data, frag⟩], none⟩ ∧
        10 < frag.length) ∧
      (salvageFragment msg = none →
        studyHelpOnCrewError msg =
          some ⟨false, some pleaseRephraseAnswer, none, some formatParsingError⟩)) := by
  refine ⟨fun hF => ?_, fun hT => ⟨fun frag hs => ⟨?_, salvage_length hs⟩, fun hn => ?_⟩⟩
  · simp only [studyHelpOnCrewError, hF, Bool.false_eq_true, if_false]
  · simp only [studyHelpOnCrewError, hT, if_true, hs]
  · simp only [studyHelpOnCrewError, hT, if_true, hn]

/-- C2 witness: a concrete format-error message with a salvageable fragment. -/
theorem c2_format_error_recovery_witness :
    formatIndicator c2Msg = true ∧
    salvageFragment c2Msg = some c2Frag ∧
    studyHelpOnCrewError c2Msg =
      some ⟨true, some c2Frag, some [⟨"assistant".data, c2Frag⟩], none⟩ :=
  ⟨rfl, rfl, (((c2_format_error_recovery c2Msg).2 rfl).1 c2Frag rfl).1⟩

/-- C3 (code bug): `study_help` passes `available_agent_roles` as a keyword to
`create_classroom_crew`, whose parameters are only `subject` and
`agents_config`; every discussion request — the empty `availableRoles` set
included — therefore raises `TypeError` before any task is composed, and the
caller receives a `success=False` error result carrying the exception detail
instead of the claimed "no responder" result.  The gateway is indeed never
invoked, but through the crash, not through an empty task list. -/
theorem c3_empty_roles_typeerror :
    study_help_discussion "general".data none (some []) =
      .errorResult ⟨false, none, none, some typeErrorDetail⟩ ∧
    kwargsAccepted create_classroom_crew_params study_help_crew_call_kwargs = false :=
  ⟨rfl, rfl⟩

/-- C7 counterexample: the timeout of the worker-thread path produces the
outer-handler error JSON (`success=False`, empty `error` string, no answer),
which differs from the packaged recoverable-error result the claim promises. -/
theorem c7_counterexample :
    run_agent_direct_in_loop .timedOut ≠ packagedRecoverableResult ∧
    run_agent_direct_in_loop .timedOut = ⟨false, none, none, some []⟩ := by
  exact ⟨by decide, by decide⟩

/-- C7 (corrected, amended): in direct mode under a running event loop the
gateway call is off-loaded to a worker thread bounded by
`future.result(timeout=300)`; when the timeout elapses the pipeline returns
the hard-failure error JSON (success `False`, `answer` null, `error` the empty
stringified `TimeoutError`), not the recoverable-error result of §4.6. -/
theorem c7_timeout_hard_failure :
    run_agent_direct_timeout_seconds = 300 ∧
    run_agent_direct_in_loop .timedOut = ⟨false, none, none, some []⟩ ∧
    packagedRecoverableResult =
      ⟨false, some pleaseRephraseAnswer, none, some formatParsingError⟩ ∧
    run_agent_direct_in_loop .timedOut ≠ packagedRecoverableResult := by
  refine ⟨rfl, by decide, by decide, by decide⟩

theorem jGet_append3_re (spec : JObj) (re expv dv : Json) :
    jGet (spec ++ [("render_engine".data, re), ("expression".data, expv), ("desmos".data, dv)])
      "render_engine".data = some re := by
  unfold jGet
  rw [List.reverse_append]
  rfl

theorem jGet_append3_expr (spec : JObj) (re expv dv : Json) :
    jGet (spec ++ [("render_engine".data, re), ("expression".data, expv), ("desmos".data, dv)])
      "expression".data = some expv := by
  unfold jGet
  rw [List.reverse_append]
  rfl

theorem jHasKey_append3_re (spec : JObj) (re expv dv : Json) :
    jHasKey (spec ++ [("render_engine".data, re), ("expression".data, expv), ("desmos".data, dv)])
      "render_engine".data = true := by
  unfold jHasKey
  rw [List.any_append]
  simp

theorem jstr_ne {s t : Str} (h : s ≠ t) : Json.jstr s ≠ Json.jstr t := by
  intro he
  injection he with h2
  exact h h2

/-- C8 (confirmed): every payload built by the whiteboard tool — through the
core spec builder, the declared `_run` entry, or the flexible wrapper — has
`render_engine` equal to `"desmos"` or `"whiteboard"`, carries at least one of
the marker keys, and its `expression` is a string exactly on the Desmos
engine and `null` on the whiteboard engine. -/
theorem c8_whiteboard_payload_shape :
    (∀ (t ct cx : Json) (d : Bool), payloadShapeOk (whiteboardToolRunCore t ct cx d)) ∧
    (∀ (topic content_type context : Str) (d : Bool),
        payloadShapeOk (whiteboardToolRun topic content_type context d)) ∧
    (∀ payload : Str, payloadShapeOk (whiteboardFlexRun payload)) := by
  have hne : Json.jstr "desmos".data ≠ Json.jstr "whiteboard".data := jstr_ne (by decide)
  have core : ∀ (t ct cx : Json) (d : Bool), payloadShapeOk (whiteboardToolRunCore t ct cx d) := by
    intro t ct cx d
    unfold whiteboardToolRunCore
    split
    · refine ⟨Or.inl (jGet_append3_re _ _ _ _), Or.inr (Or.inl (jHasKey_append3_re _ _ _ _)),
        fun _ => ⟨pyStrJson t, jGet_append3_expr _ _ _ _⟩, fun hw => ?_⟩
      rw [jGet_append3_re] at hw
      exact absurd (Option.some.inj hw) hne
    · refine ⟨Or.inr (jGet_append3_re _ _ _ _), Or.inr (Or.inl (jHasKey_append3_re _ _ _ _)),
        fun hd => ?_, fun _ => jGet_append3_expr _ _ _ _⟩
      rw [jGet_append3_re] at hd
      exact absurd (Option.some.inj hd).symm hne
  have run : ∀ (topic content_type context : Str) (d : Bool),
      payloadShapeOk (whiteboardToolRun topic content_type context d) := by
    intro a b c d
    rcases h : whiteboardDefensive a b c d with ⟨t', ct', cx', d'⟩
    simp only [whiteboardToolRun, h]
    exact core t' ct' cx' d'
  refine ⟨core, run, fun payload => ?_⟩
  have dispatch : ∀ (t ct cx : Json) (d : Bool), payloadShapeOk (whiteboardRunDispatch t ct cx d) := by
    intro t ct cx d
    unfold whiteboardRunDispatch
    split
    · exact run _ _ _ _
    · exact core _ _ _ _
  unfold whiteboardFlexRun
  split
  · cases hj : pyJsonLoads payload with
    | none => simp only [hj]; exact run _ _ _ _
    | some v =>
      simp only [hj]
      cases v with
      | jobj o => exact dispatch _ _ _ _
      | jnull => exact run _ _ _ _
      | jbool b => exact run _ _ _ _
      | jnum m e => exact run _ _ _ _
      | jstr s => exact run _ _ _ _
      | jarr l => exact run _ _ _ _
  · exact run _ _ _ _

/-- C8 witness: concrete Desmos payload, with the implication discharged. -/
theorem c8_whiteboard_payload_shape_witness :
    ∃ s, jGet (whiteboardToolRunCore (.jstr "y = x^2".data) (.jstr "graph".data) (.jstr []) true)
      "expression".data = some (.jstr s) :=
  (c8_whiteboard_payload_shape.1 (.jstr "y = x^2".data) (.jstr "graph".data) (.jstr []) true).2.2.1 rfl

theorem strIn_nil (hay : Str) : strIn [] hay = true := by
  induction hay with
  | nil => rfl
  | cons c t ih => simp [strIn, ih]

theorem find_agent_eq (crew : CrewR) (r : Str) :
    find_agent_by_role crew r =
      crew.agents.find? (fun a => strIn (lowerStr r) (lowerStr a.role)) := by
  cases h : crew.agents with
  | nil => simp [find_agent_by_role, h]
  | cons a t => simp [find_agent_by_role, h]

/-- C10 (confirmed): `find_agent_by_role` returns the first agent whose role
contains the given substring case-insensitively, `None` exactly when no agent
matches (in particular when the roster is empty); the empty substring matches
everything, so it returns the roster head, and `add_user_question_flow` with
an unset preferred role (passed as `""`) silently selects the first roster
agent — concretely the professor — rather than getting `None`. -/
theorem c10_find_agent_by_role :
    (∀ (crew : CrewR) (r : Str) (a : AgentR),
      find_agent_by_role crew r = some a →
        strIn (lowerStr r) (lowerStr a.role) = true ∧
        ∃ pre post, crew.agents = pre ++ a :: post ∧
          ∀ b ∈ pre, strIn (lowerStr r) (lowerStr b.role) = false) ∧
    (∀ (crew : CrewR) (r : Str),
      find_agent_by_role crew r = none ↔
        ∀ a ∈ crew.agents, strIn (lowerStr r) (lowerStr a.role) = false) ∧
    (∀ crew : CrewR, find_agent_by_role crew [] = crew.agents.head?) ∧
    (∀ crew : CrewR, addUserQuestionPrimary crew none = crew.agents.head?) ∧
    addUserQuestionPrimary (create_classroom_crew "general".data) none =
      some (professorAgent "general".data) := by
  have hEmptyNeedle : ∀ crew : CrewR, find_agent_by_role crew [] = crew.agents.head? := by
    intro crew
    rw [find_agent_eq]
    cases crew.agents with
    | nil => rfl
    | cons a t =>
      rw [List.find?_cons_of_pos]
      · rfl
      · simp [lowerStr, strIn_nil]
  refine ⟨?_, ?_, hEmptyNeedle, ?_, rfl⟩
  · intro crew r a h
    rw [find_agent_eq] at h
    obtain ⟨hp, pre, post, happ, hall⟩ := List.find?_eq_some.mp h
    refine ⟨hp, pre, post, happ, fun b hb => ?_⟩
    have := hall b hb
    simpa using this
  · intro crew r
    rw [find_agent_eq, List.find?_eq_none]
    constructor
    · intro h a ha
      have := h a ha
      simpa using this
    · intro h a ha
      simp [h a ha]
  · intro crew
    cases hag : crew.agents with
    | nil => simp [addUserQuestionPrimary, find_agent_by_role, hag]
    | cons a t =>
      have h3 := hEmptyNeedle crew
      rw [hag] at h3
      simp only [addUserQuestionPrimary, Option.getD, h3, List.head?_cons]

/-- C10 witness: the expert lookup succeeds and the theorem applies to it. -/
theorem c10_find_agent_by_role_witness :
    find_agent_by_role (create_classroom_crew "general".data) "Problem Analyst".data =
      some (expertAgent "general".data) ∧
    strIn (lowerStr "Problem Analyst".data) (lowerStr (expertAgent "general".data).role) = true :=
  ⟨rfl, (c10_find_agent_by_role.1 (create_classroom_crew "general".data)
    "Problem Analyst".data (expertAgent "general".data) rfl).1⟩

theorem pySplit_tokens (s : Str) :
    ∀ w ∈ pySplit s, w ≠ [] ∧ ∀ c ∈ w, isPySpace c = false := by
  induction s using pySplit.induct with
  | case1 => simp [pySplit]
  | case2 c t hc ih =>
    intro w hw
    rw [pySplit, if_pos hc] at hw
    exact ih w hw
  | case3 c t hc ih =>
    intro w hw
    rw [pySplit, if_neg hc] at hw
    rcases List.mem_cons.mp hw with rfl | hw2
    · refine ⟨?_, fun ch hch => ?_⟩
      · have hcb : isPySpace c = false := by simpa using hc
        simp [List.takeWhile_cons, hcb]
      · have := List.mem_takeWhile_imp hch
        simpa using this
    · exact ih w hw2

theorem takeWhile_nonspace_append (w z : Str) (hw : ∀ c ∈ w, isPySpace c = false) :
    (w ++ ' ' :: z).takeWhile (fun x => !isPySpace x) = w ∧
    (w ++ ' ' :: z).dropWhile (fun x => !isPySpace x) = ' ' :: z := by
  induction w with
  | nil => simp [List.takeWhile_cons, List.dropWhile_cons, isPySpace]
  | cons a t ih =>
    have ha : isPySpace a = false := hw a (by simp)
    have iht := ih (fun c hc => hw c (by simp [hc]))
    simp [List.takeWhile_cons, List.dropWhile_cons, ha, iht.1, iht.2]

theorem pySplit_single (s : Str) (hne : s ≠ []) (hfs : ∀ c ∈ s, isPySpace c = false) :
    pySplit s = [s] := by
  cases s with
  | nil => exact absurd rfl hne
  | cons c t =>
    have hc : isPySpace c = false := hfs c (by simp)
    rw [pySplit, if_neg (by simp [hc])]
    rw [List.takeWhile_eq_self_iff.mpr (fun x hx => by simp [hfs x hx]),
        List.dropWhile_eq_nil_iff.mpr (fun x hx => by simp [hfs x hx])]
    simp [pySplit]

theorem pySplit_joinSpace_dots (ws : List Str)
    (h : ∀ w ∈ ws, w ≠ [] ∧ ∀ c ∈ w, isPySpace c = false) (hne : ws ≠ []) :
    (pySplit (joinSpace ws ++ "...".data)).length = ws.length := by
  induction ws with
  | nil => exact absurd rfl hne
  | cons w rest ih =>
    obtain ⟨hwne, hwfs⟩ := h w (by simp)
    cases rest with
    | nil =>
      have : pySplit (joinSpace [w] ++ "...".data) = [w ++ "...".data] := by
        apply pySplit_single
        · simp [joinSpace]
        · intro c hc
          have hc2 : c ∈ w ++ "...".data := hc
          rcases List.mem_append.mp hc2 with h1 | h2
          · exact hwfs c h1
          · have hdots : "...".data = ['.', '.', '.'] := rfl
            rw [hdots] at h2
            rcases List.mem_cons.mp h2 with rfl | h3
            · rfl
            rcases List.mem_cons.mp h3 with rfl | h4
            · rfl
            rcases List.mem_cons.mp h4 with rfl | h5
            · rfl
            · exact absurd h5 (List.not_mem_nil c)
      simp [this]
    | cons w2 rest2 =>
      have hjoin : joinSpace (w :: w2 :: rest2) ++ "...".data =
          w ++ ' ' :: (joinSpace (w2 :: rest2) ++ "...".data) := by
        show (w ++ ' ' :: joinSpace (w2 :: rest2)) ++ "...".data = _
        simp
      rw [hjoin]
      cases hw : w with
      | nil => exact absurd hw hwne
      | cons c t =>
        have hc : isPySpace c = false := by
          apply hwfs; rw [hw]; simp
      
        have htw := takeWhile_nonspace_append w (joinSpace (w2 :: rest2) ++ "...".data)
          (fun c hc => hwfs c hc)
        rw [hw] at htw
        rw [List.cons_append, pySplit, if_neg (by simp [hc])]
        rw [← List.cons_append, htw.1, htw.2]
        rw [pySplit, if_pos (by simp [isPySpace])]
        have := ih (fun x hx => h x (by simp [hx])) (List.cons_ne_nil _ _)
        simp [this]

/-- C9 (confirmed): in discussion mode every returned agent message and the
main response text hold at most 100 words — texts of at most 100 words pass
unchanged, longer ones are cut to their first 100 words with `"..."` appended
(glued to the hundredth word, so the result still splits into 100 words). -/
theorem c9_discussion_truncation :
    (∀ (rs : List AgentMsg), ∀ m ∈ discussionTruncateResponses rs,
       (pySplit m.message).length ≤ 100) ∧
    (∀ text : Str, (pySplit (discussionTruncateText text)).length ≤ 100) ∧
    (∀ text : Str, (pySplit text).length ≤ 100 → discussionTruncateText text = text) ∧
    (∀ text : Str, (pySplit text).length > 100 →
       discussionTruncateText text = joinSpace ((pySplit text).take 100) ++ "...".data) := by
  have htrunc : ∀ text : Str, (pySplit (discussionTruncateText text)).length ≤ 100 := by
    intro text
    show (pySplit (if (pySplit text).length > 100 then
      joinSpace ((pySplit text).take 100) ++ "...".data else text)).length ≤ 100
    by_cases hlen : (pySplit text).length > 100
    · rw [if_pos hlen]
      have hcount := pySplit_joinSpace_dots ((pySplit text).take 100)
        (fun w hw => pySplit_tokens text w (List.mem_of_mem_take hw))
        (by
          intro hemp
          have hlen2 := congrArg List.length hemp
          rw [List.length_take] at hlen2
          simp only [List.length_nil] at hlen2
          omega)
      rw [hcount, List.length_take]
      omega
    · rw [if_neg hlen]
      omega
  refine ⟨?_, htrunc, ?_, ?_⟩
  · intro rs m hm
    unfold discussionTruncateResponses at hm
    obtain ⟨r, _, hr⟩ := List.mem_map.mp hm
    by_cases hemp : r.message = []
    · rw [if_neg (by simp [hemp])] at hr
      rw [← hr, hemp]
      simp [pySplit]
    · rw [if_pos hemp] at hr
      rw [← hr]
      exact htrunc r.message
  · intro text hle
    show (if (pySplit text).length > 100 then
      joinSpace ((pySplit text).take 100) ++ "...".data else text) = text
    rw [if_neg (by omega)]
  · intro text hgt
    show (if (pySplit text).length > 100 then
      joinSpace ((pySplit text).take 100) ++ "...".data else text) =
        joinSpace ((pySplit text).take 100) ++ "...".data
    rw [if_pos hgt]

/-- C9 witness: a short text passes unchanged, and a 101-word text is bounded
by 100 words after truncation. -/
theorem c9_discussion_truncation_witness :
    discussionTruncateText "two words".data = "two words".data ∧
    (pySplit (discussionTruncateText (joinSpace (List.replicate 101 "w".data)))).length ≤ 100 :=
  ⟨c9_discussion_truncation.2.2.1 "two words".data
     (by simp [pySplit, isPySpace, List.takeWhile, List.dropWhile]),
   c9_discussion_truncation.2.1 (joinSpace (List.replicate 101 "w".data))⟩

theorem pyStrip_eq_nil_iff (s : Str) : pyStrip s = [] ↔ ∀ c ∈ s, isPySpace c = true := by
  unfold pyStrip
  rw [List.reverse_eq_nil_iff, List.dropWhile_eq_nil_iff]
  constructor
  · intro h c hc
    by_cases hsp : isPySpace c = true
    · exact hsp
    · have hcd : c ∈ s.dropWhile isPySpace := by
        have hsplit := List.takeWhile_append_dropWhile (p := isPySpace) (l := s)
        rw [← hsplit] at hc
        rcases List.mem_append.mp hc with h1 | h2
        · exact absurd (List.mem_takeWhile_imp h1) hsp
        · exact h2
      exact h c (List.mem_reverse.mpr hcd)
  · intro h x hx
    exact h x ((List.dropWhile_sublist _).subset (List.mem_reverse.mp hx))

theorem pyStrip_ne_nil_of_mem {s : Str} {c : Char} (hc : c ∈ s) (hcs : isPySpace c = false) :
    pyStrip s ≠ [] := by
  intro h
  have := (pyStrip_eq_nil_iff s).mp h c hc
  rw [this] at hcs
  cases hcs

theorem pyStrip_wrapped (a b : Char) (m : Str) (ha : isPySpace a = false)
    (hb : isPySpace b = false) : pyStrip (a :: (m ++ [b])) = a :: (m ++ [b]) := by
  unfold pyStrip
  rw [List.dropWhile_cons_of_neg (by simp [ha])]
  rw [show (a :: (m ++ [b])).reverse = b :: (m.reverse ++ [a]) by simp]
  rw [List.dropWhile_cons_of_neg (by simp [hb])]
  simp

theorem pyStrList_strip (items : List Str) : pyStrip (pyStrList items) = pyStrList items :=
  pyStrip_wrapped '[' ']' _ (by decide) (by decide)

theorem pyStrDict_strip (pairs : List (Str × Str)) :
    pyStrip (pyStrDict pairs) = pyStrDict pairs :=
  pyStrip_wrapped '{' '}' _ (by decide) (by decide)

theorem pyStrList_backtick (items : List Str) : backtickStripped (pyStrList items) ≠ [] := by
  unfold backtickStripped
  apply pyStrip_ne_nil_of_mem (c := '[')
  · rw [List.mem_filter]
    exact ⟨by simp [pyStrList], by decide⟩
  · decide

theorem pyStrDict_backtick (pairs : List (Str × Str)) :
    backtickStripped (pyStrDict pairs) ≠ [] := by
  unfold backtickStripped
  apply pyStrip_ne_nil_of_mem (c := '{')
  · rw [List.mem_filter]
    exact ⟨by simp [pyStrDict], by decide⟩
  · decide

theorem pyStrList_strip_ne_nil (items : List Str) : pyStrip (pyStrList items) ≠ [] := by
  rw [pyStrList_strip]
  simp [pyStrList]

theorem foldl_listStep_length (tasks : List TaskM) :
    ∀ (l : List (Nat × Str)) (st : NState),
      ((l.foldl (listStep tasks) st).responses).length = st.responses.length + l.length := by
  intro l
  induction l with
  | nil => intro st; simp
  | cons p t ih =>
    intro st
    rw [List.foldl_cons, ih]
    simp [listStep]
    omega

/-- One fallback-probe step keeps the no-responses-no-main invariant. -/
theorem fallbackTaskStep_empty_main (st : NState) (t : TaskM)
    (h : st.responses = [] → st.main = none) :
    (fallbackTaskStep st t).responses = [] → (fallbackTaskStep st t).main = none := by
  unfold fallbackTaskStep
  split
  · exact h
  · split
    · intro hc
      exact absurd hc (by simp)
    · exact h

/-- A state with no responses has no main answer, invariant under the
fallback task probe (both are set together). -/
theorem fallbackFold_empty_main (tasks : List TaskM) :
    ∀ (l : List TaskM) (st : NState), (st.responses = [] → st.main = none) →
      ((l.foldl fallbackTaskStep st).responses = [] →
       (l.foldl fallbackTaskStep st).main = none) := by
  intro l
  induction l with
  | nil => intro st h; exact h
  | cons t rest ih =>
    intro st h
    rw [List.foldl_cons]
    exact ih _ (fallbackTaskStep_empty_main st t h)

/-- Blocks 7-10 do not change a state whose main answer is set and
non-blank. -/
theorem tailBlocks_main (tasks : List TaskM) (st : NState) (m : Str)
    (hm : st.main = some m) (hblank : mainBlank st.main = false) :
    (nBlockPlaceholder (nBlockLongest (nBlockLateOutput tasks (nBlockFirstMsg st)))).main =
      some m := by
  have h5 : nBlockFirstMsg st = st := by
    unfold nBlockFirstMsg
    split
    · rfl
    · rw [if_neg (by simp [hm])]
  rw [h5]
  have h6 : nBlockLateOutput tasks st = st := by
    simp [nBlockLateOutput, hblank]
  rw [h6]
  have h7 : nBlockLongest st = st := by
    simp [nBlockLongest, hblank]
  rw [h7]
  have h8 : nBlockPlaceholder st = st := by
    simp [nBlockPlaceholder, hblank]
  rw [h8, hm]

/-- C5 (corrected, amended): the stringified whole result is not a lowest
fallback but an override — for every list-shaped result the final main answer
is the stringified list, regardless of any expert or first message selected
earlier; the fixed placeholder applies only when no block yields an answer
(shown on an object with blank string form, no raw and no task outputs).
There is no separate engine answer field at this stage. -/
theorem c5_stringified_result_overrides :
    (∀ (tasks : List TaskM) (items : List Str),
       (normalizeCore tasks (.pylist items)).main = some (pyStrList items)) ∧
    (normalizeCore c4Tasks (.obj none none [' '])).main = some noAnswerPlaceholder := by
  constructor
  · intro tasks items
    have hid : pyStrOfResult (RawResult.pylist items) = pyStrList items := rfl
    have hnn : (RawResult.pylist items) ≠ RawResult.pynone := by simp
    have hguard2 : pyStrip (pyStrList items) ≠ [] ∧ pyStrip (pyStrList items) ≠ fenceStr ∧
        backtickStripped (pyStrip (pyStrList items)) ≠ [] := by
      refine ⟨pyStrList_strip_ne_nil items, ?_, ?_⟩
      · rw [pyStrList_strip]
        intro hcon
        have hhead := congrArg List.head? hcon
        rw [show (pyStrList items).head? = some '[' by simp [pyStrList]] at hhead
        exact absurd (Option.some.inj hhead) (by decide)
      · rw [pyStrList_strip]
        exact pyStrList_backtick items
    have hmain : (nBlockStrResult tasks (.pylist items)
        (nBlockFallback tasks (nBlockRaw tasks (.pylist items)
          (nBlockShape tasks (.pylist items))))).main = some (pyStrList items) ∧
        (nBlockStrResult tasks (.pylist items)
        (nBlockFallback tasks (nBlockRaw tasks (.pylist items)
          (nBlockShape tasks (.pylist items))))).responses ≠ [] := by
      cases hitems : items with
      | nil =>
        subst hitems
        have hshape : nBlockShape tasks (.pylist []) = ⟨[], none⟩ := rfl
        have hraw : nBlockRaw tasks (.pylist []) ⟨[], none⟩ = ⟨[], none⟩ := rfl
        rw [hshape, hraw]
        have hst3main : (nBlockFallback tasks ⟨[], none⟩).responses = [] →
            (nBlockFallback tasks ⟨[], none⟩).main = none := by
          unfold nBlockFallback
          split
          · exact fallbackFold_empty_main tasks tasks ⟨[], none⟩ (fun _ => rfl)
          · intro _; rfl
        unfold nBlockStrResult
        rw [hid]
        cases hr : (nBlockFallback tasks ⟨[], none⟩).responses with
        | nil =>
          rw [if_pos (by simp [hr])]
          rw [if_pos ⟨by simp [pyStrList], pyStrList_strip_ne_nil []⟩]
          rw [hst3main hr]
          exact ⟨rfl, by simp⟩
        | cons r rest =>
          rw [if_neg (by simp [hr]), if_pos hnn, if_pos hguard2]
          refine ⟨?_, by simp⟩
          show some (pyStrip (pyStrList [])) = some (pyStrList [])
          rw [pyStrList_strip]
      | cons i rest =>
        have hne : (nBlockShape tasks (.pylist items)).responses ≠ [] := by
          have hlen : (nBlockShape tasks (.pylist items)).responses.length = items.length := by
            show ((items.enum.foldl (listStep tasks) ⟨[], none⟩).responses).length = items.length
            rw [foldl_listStep_length]
            simp
          intro h
          rw [h] at hlen
          simp [hitems] at hlen
        rw [← hitems]
        have hraw : nBlockRaw tasks (.pylist items) (nBlockShape tasks (.pylist items)) =
            nBlockShape tasks (.pylist items) := by
          unfold nBlockRaw
          rw [if_neg (by simp [hne])]
        rw [hraw]
        have hfb : nBlockFallback tasks (nBlockShape tasks (.pylist items)) =
            nBlockShape tasks (.pylist items) := by
          unfold nBlockFallback
          rw [if_neg (by simp [hne])]
        rw [hfb]
        unfold nBlockStrResult
        rw [hid]
        rw [if_neg (by simp [hne]), if_pos hnn, if_pos hguard2]
        refine ⟨?_, by simp⟩
        show some (pyStrip (pyStrList items)) = some (pyStrList items)
        rw [pyStrList_strip]
    obtain ⟨hm, hr⟩ := hmain
    have hblank : mainBlank (nBlockStrResult tasks (.pylist items)
        (nBlockFallback tasks (nBlockRaw tasks (.pylist items)
          (nBlockShape tasks (.pylist items))))).main = false := by
      rw [hm]
      unfold mainBlank
      simp [pyStrList_strip_ne_nil items]
    unfold normalizeCore
    exact tailBlocks_main tasks _ (pyStrList items) hm hblank
  · rfl

/-- C5 counterexample: on `["hello"]` with no tasks, the first (and expert-
labelled) message is `"hello"`, yet the final main answer is the stringified
list `"['hello']"` — rule (c)/(b) of the claimed precedence is overridden. -/
theorem c5_counterexample :
    (normalizeCore [] (.pylist ["hello".data])).main = some (pyStrList ["hello".data]) ∧
    pyStrList ["hello".data] ≠ "hello".data ∧
    (normalizeCore [] (.pylist ["hello".data])).responses.head? =
      some ⟨"Expert".data, "hello".data⟩ :=
  ⟨rfl, by decide, rfl⟩

/-- C5 witness: the override theorem applied at a concrete list result. -/
theorem c5_stringified_result_overrides_witness :
    (normalizeCore c4Tasks (.pylist ["alpha".data, "beta".data])).main =
      some (pyStrList ["alpha".data, "beta".data]) :=
  c5_stringified_result_overrides.1 c4Tasks ["alpha".data, "beta".data]

theorem guardedAppend_inv (st : NState) (name os : Str) (main2 : Option Str)
    (hos : backtickStripped os ≠ []) (hinv : respInv st) :
    respInv ⟨if st.responses.any (fun r => decide (r.message = os)) then st.responses
             else st.responses ++ [⟨name, os⟩], main2⟩ := by
  by_cases hdup : st.responses.any (fun r => decide (r.message = os)) = true
  · rw [if_pos hdup]
    exact ⟨hinv.1, hinv.2⟩
  · rw [if_neg hdup]
    constructor
    · intro m hm
      rcases List.mem_append.mp hm with h1 | h2
      · exact hinv.1 m h1
      · rw [List.mem_singleton.mp h2]
        exact hos
    · rw [List.map_append]
      refine List.Nodup.append hinv.2 (by simp) ?_
      intro x hx hx2
      simp only [List.map_cons, List.map_nil, List.mem_singleton] at hx2
      apply hdup
      rw [List.any_eq_true]
      obtain ⟨r, hr, hrm⟩ := List.mem_map.mp hx
      exact ⟨r, hr, by simp [hrm, hx2]⟩

theorem probeStep_inv (st : NState) (t : TaskM) (hinv : respInv st) :
    respInv (probeStep st t) := by
  unfold probeStep
  split
  · exact hinv
  · split
    · rename_i hcond
      exact guardedAppend_inv st t.role _ _ hcond.2.2 hinv
    · exact hinv

theorem dictStep_inv (tasks : List TaskM) (st : NState) (p : Str × Str) (hinv : respInv st) :
    respInv (dictStep tasks st p) := by
  unfold dictStep
  split
  · exact hinv
  · rename_i hcond
    push_neg at hcond
    exact guardedAppend_inv st (dictRoleFor tasks p.1) _ _ hcond.2.2 hinv

theorem foldl_respInv {α : Type} (step : NState → α → NState)
    (hstep : ∀ st a, respInv st → respInv (step st a)) :
    ∀ (l : List α) (st : NState), respInv st → respInv (l.foldl step st) := by
  intro l
  induction l with
  | nil => intro st h; exact h
  | cons a rest ih =>
    intro st h
    rw [List.foldl_cons]
    exact ih _ (hstep st a h)

theorem dictNState_inv (tasks : List TaskM) (pairs : List (Str × Str)) :
    respInv (dictNState tasks pairs) := by
  unfold dictNState
  exact foldl_respInv _ (fun st p hp => dictStep_inv tasks st p hp) pairs _
    (foldl_respInv _ (fun st t ht => probeStep_inv st t ht) tasks _ ⟨by simp, by simp⟩)

theorem pyStrip_ne_of_backtick {s : Str} (h : backtickStripped s ≠ []) : pyStrip s ≠ [] := by
  intro hs
  apply h
  unfold backtickStripped
  rw [pyStrip_eq_nil_iff] at hs ⊢
  intro c hc
  exact hs c (List.mem_filter.mp hc).1

/-- Blocks 7-10 do not change a state whose main answer is set non-blank. -/
theorem tailBlocks_id (tasks : List TaskM) (st : NState) (m : Str)
    (hm : st.main = some m) (hblank : mainBlank st.main = false) :
    nBlockPlaceholder (nBlockLongest (nBlockLateOutput tasks (nBlockFirstMsg st))) = st := by
  have h5 : nBlockFirstMsg st = st := by
    unfold nBlockFirstMsg
    split
    · rfl
    · rw [if_neg (by simp [hm])]
  rw [h5]
  have h6 : nBlockLateOutput tasks st = st := by
    simp [nBlockLateOutput, hblank]
  rw [h6]
  have h7 : nBlockLongest st = st := by
    simp [nBlockLongest, hblank]
  rw [h7]
  simp [nBlockPlaceholder, hblank]

/-- C4 (corrected, amended): the post-processing is applied by the dict
branch, not uniformly.  When the dict branch produced at least one message,
the final list is exactly those messages plus one trailing `Assistant` entry
holding the stringified whole dict: every entry's trimmed text is non-empty
and not fence-only, and all entries except possibly the trailing one have
pairwise distinct text.  The list and `tasks_output` branches append
unconditionally (see the counterexample). -/
theorem c4_postprocessing_not_uniform (tasks : List TaskM) (pairs : List (Str × Str))
    (h : (dictNState tasks pairs).responses ≠ []) :
    (normalizeCore tasks (.pydict pairs)).responses =
      (dictNState tasks pairs).responses ++ [⟨"Assistant".data, pyStrDict pairs⟩] ∧
    (∀ m ∈ (normalizeCore tasks (.pydict pairs)).responses,
       pyStrip m.message ≠ [] ∧ backtickStripped m.message ≠ []) ∧
    ((normalizeCore tasks (.pydict pairs)).responses.map (fun r => r.message)).dropLast.Nodup := by
  have hid : pyStrOfResult (RawResult.pydict pairs) = pyStrDict pairs := rfl
  have hshape : nBlockShape tasks (.pydict pairs) = dictNState tasks pairs := rfl
  have hraw : nBlockRaw tasks (.pydict pairs) (dictNState tasks pairs) = dictNState tasks pairs := by
    unfold nBlockRaw
    rw [if_neg (by simp [h])]
  have hfb : nBlockFallback tasks (dictNState tasks pairs) = dictNState tasks pairs := by
    unfold nBlockFallback
    rw [if_neg (by simp [h])]
  have hguard : pyStrip (pyStrDict pairs) ≠ [] ∧ pyStrip (pyStrDict pairs) ≠ fenceStr ∧
      backtickStripped (pyStrip (pyStrDict pairs)) ≠ [] := by
    refine ⟨by rw [pyStrDict_strip]; simp [pyStrDict], ?_, ?_⟩
    · rw [pyStrDict_strip]
      intro hcon
      have hhead := congrArg List.head? hcon
      rw [show (pyStrDict pairs).head? = some '{' by simp [pyStrDict]] at hhead
      exact absurd (Option.some.inj hhead) (by decide)
    · rw [pyStrDict_strip]
      exact pyStrDict_backtick pairs
  have hst4 : nBlockStrResult tasks (.pydict pairs) (dictNState tasks pairs) =
      ⟨(dictNState tasks pairs).responses ++ [⟨"Assistant".data, pyStrDict pairs⟩],
       some (pyStrDict pairs)⟩ := by
    unfold nBlockStrResult
    rw [hid]
    rw [if_neg (by simp [h]), if_pos (show (RawResult.pydict pairs) ≠ RawResult.pynone by simp)]
    rw [if_pos hguard, pyStrDict_strip]
  have hall : normalizeCore tasks (.pydict pairs) =
      ⟨(dictNState tasks pairs).responses ++ [⟨"Assistant".data, pyStrDict pairs⟩],
       some (pyStrDict pairs)⟩ := by
    unfold normalizeCore
    rw [hshape, hraw, hfb, hst4]
    apply tailBlocks_id tasks _ (pyStrDict pairs) rfl
    simp [mainBlank, hguard.1]
  have hinv := dictNState_inv tasks pairs
  rw [hall]
  refine ⟨rfl, ?_, ?_⟩
  · intro m hm
    rcases List.mem_append.mp hm with h1 | h2
    · exact ⟨pyStrip_ne_of_backtick (hinv.1 m h1), hinv.1 m h1⟩
    · rw [List.mem_singleton.mp h2]
      exact ⟨pyStrip_ne_of_backtick (pyStrDict_backtick pairs), pyStrDict_backtick pairs⟩
  · rw [List.map_append]
    simp only [List.map_cons, List.map_nil]
    rw [List.dropLast_concat]
    exact hinv.2

/-- C4 counterexample: a list-shaped result with two identical fence-only
items yields three entries, two of them byte-identical and fence-only — the
claimed uniform filtering and deduplication do not hold for the list shape. -/
theorem c4_counterexample :
    ((normalizeCore c4Tasks (.pylist [fenceStr, fenceStr])).responses.map (fun r => r.message)) =
      [fenceStr, fenceStr, pyStrList [fenceStr, fenceStr]] ∧
    ¬ ((normalizeCore c4Tasks (.pylist [fenceStr, fenceStr])).responses.map
        (fun r => r.message)).Nodup ∧
    backtickStripped fenceStr = [] :=
  ⟨rfl, by decide, rfl⟩

/-- C4 witness: a one-pair dict, with the non-empty hypothesis discharged. -/
theorem c4_postprocessing_witness :
    (normalizeCore c4Tasks (.pydict [("d1".data, "answer one".data)])).responses =
      (dictNState c4Tasks [("d1".data, "answer one".data)]).responses ++
        [⟨"Assistant".data, pyStrDict [("d1".data, "answer one".data)]⟩] :=
  (c4_postprocessing_not_uniform c4Tasks [("d1".data, "answer one".data)] (by decide)).1

theorem role_injective : Function.Injective AgentR.role := by
  intro a b h
  cases a
  cases b
  simpa using h

theorem find_agent_mem {crew : CrewR} {r : Str} {a : AgentR}
    (h : find_agent_by_role crew r = some a) : a ∈ crew.agents := by
  rw [find_agent_eq] at h
  exact List.mem_of_find?_eq_some h

theorem discussionPrimary_mem {crew : CrewR} {actual : Option Str} {p : AgentR}
    (h : discussionPrimary crew actual = some p) : p ∈ crew.agents := by
  cases actual with
  | none => cases h
  | some a =>
    by_cases ha : a ≠ []
    · have h2 : find_agent_by_role crew a = some p := by
        rw [show discussionPrimary crew (some a) = find_agent_by_role crew a from by
          simp [discussionPrimary, ha]] at h
        exact h
      exact find_agent_mem h2
    · rw [show discussionPrimary crew (some a) = none from by
        simp [discussionPrimary, ha]] at h
      cases h

theorem roster_nodup (subject : Str) : (create_classroom_crew subject).agents.Nodup := by
  have hPE : professorAgent subject ≠ expertAgent subject := by
    intro hcon
    have hr : "Socratic Mentor for ".data ++ pyTitle subject =
        pyTitle subject ++ " Problem Analyst".data := by
      simpa [professorAgent, expertAgent] using hcon
    have hlen := congrArg List.length hr
    rw [List.length_append, List.length_append,
        show ("Socratic Mentor for ".data).length = 20 from rfl,
        show (" Problem Analyst".data).length = 16 from rfl] at hlen
    omega
  have hPC : professorAgent subject ≠ challengerAgent := by
    intro hcon
    have hr : "Socratic Mentor for ".data ++ pyTitle subject = "Critical Thinker".data := by
      simpa [professorAgent, challengerAgent] using hcon
    have hh := congrArg List.head? hr
    rw [show ("Socratic Mentor for ".data ++ pyTitle subject).head? = some 'S' from rfl] at hh
    exact absurd hh (by decide)
  have hPS : professorAgent subject ≠ studentAgent := by
    intro hcon
    have hr : "Socratic Mentor for ".data ++ pyTitle subject = "Peer Student".data := by
      simpa [professorAgent, studentAgent] using hcon
    have hh := congrArg List.head? hr
    rw [show ("Socratic Mentor for ".data ++ pyTitle subject).head? = some 'S' from rfl] at hh
    exact absurd hh (by decide)
  have hPCo : professorAgent subject ≠ connectorAgent := by
    intro hcon
    have hr : "Socratic Mentor for ".data ++ pyTitle subject =
        "Interdisciplinary Connector".data := by
      simpa [professorAgent, connectorAgent] using hcon
    have hh := congrArg List.head? hr
    rw [show ("Socratic Mentor for ".data ++ pyTitle subject).head? = some 'S' from rfl] at hh
    exact absurd hh (by decide)
  have hEC : expertAgent subject ≠ challengerAgent := by
    intro hcon
    have hr : pyTitle subject ++ " Problem Analyst".data = "Critical Thinker".data := by
      simpa [expertAgent, challengerAgent] using hcon
    have hlen := congrArg List.length hr
    rw [List.length_append, show (" Problem Analyst".data).length = 16 from rfl,
        show ("Critical Thinker".data).length = 16 from rfl] at hlen
    have hT : (pyTitle subject).length = 0 := by omega
    rw [List.length_eq_zero.mp hT] at hr
    exact absurd hr (by decide)
  have hES : expertAgent subject ≠ studentAgent := by
    intro hcon
    have hr : pyTitle subject ++ " Problem Analyst".data = "Peer Student".data := by
      simpa [expertAgent, studentAgent] using hcon
    have hlen := congrArg List.length hr
    rw [List.length_append, show (" Problem Analyst".data).length = 16 from rfl,
        show ("Peer Student".data).length = 12 from rfl] at hlen
    omega
  have hECo : expertAgent subject ≠ connectorAgent := by
    intro hcon
    have hr : pyTitle subject ++ " Problem Analyst".data =
        "Interdisciplinary Connector".data := by
      simpa [expertAgent, connectorAgent] using hcon
    have hlen := congrArg List.length hr
    rw [List.length_append, show (" Problem Analyst".data).length = 16 from rfl,
        show ("Interdisciplinary Connector".data).length = 27 from rfl] at hlen
    have hT : (pyTitle subject).length = 11 := by omega
    have hdrop := congrArg (List.drop 11) hr
    have hdl : (pyTitle subject ++ " Problem Analyst".data).drop 11 = " Problem Analyst".data := by
      rw [← hT, List.drop_left]
    rw [hdl] at hdrop
    exact absurd hdrop (by decide)
  show List.Nodup [professorAgent subject, expertAgent subject, challengerAgent,
    studentAgent, connectorAgent]
  refine List.nodup_cons.mpr ⟨?_, List.nodup_cons.mpr ⟨?_, by decide⟩⟩
  · intro hmem
    rcases List.mem_cons.mp hmem with hcon | hmem2
    · exact hPE hcon
    rcases List.mem_cons.mp hmem2 with hcon | hmem3
    · exact hPC hcon
    rcases List.mem_cons.mp hmem3 with hcon | hmem4
    · exact hPS hcon
    rcases List.mem_cons.mp hmem4 with hcon | hmem5
    · exact hPCo hcon
    · exact absurd hmem5 (List.not_mem_nil _)
  · intro hmem
    rcases List.mem_cons.mp hmem with hcon | hmem2
    · exact hEC hcon
    rcases List.mem_cons.mp hmem2 with hcon | hmem3
    · exact hES hcon
    rcases List.mem_cons.mp hmem3 with hcon | hmem4
    · exact hECo hcon
    · exact absurd hmem4 (List.not_mem_nil _)

theorem orderFold_spec (canon : List AgentR) :
    ∀ (acc : List AgentR), canon.Nodup →
      ((canon.map some).foldl orderStep acc) =
        acc ++ canon.filter (fun a => !acc.any (fun b => decide (b = a))) := by
  induction canon with
  | nil => intro acc _; simp
  | cons ag rest ih =>
    intro acc h
    rw [List.map_cons, List.foldl_cons]
    have hnd := List.nodup_cons.mp h
    by_cases hmem : acc.any (fun b => decide (b = ag)) = true
    · rw [show orderStep acc (some ag) = acc from by simp [orderStep, hmem]]
      rw [ih acc hnd.2]
      congr 1
      rw [List.filter_cons, if_neg (by simp [hmem])]
    · rw [show orderStep acc (some ag) = acc ++ [ag] from by simp [orderStep, hmem]]
      rw [ih (acc ++ [ag]) hnd.2]
      rw [List.filter_cons, if_pos (by simp [hmem])]
      have hfeq : rest.filter (fun a => !(acc ++ [ag]).any (fun b => decide (b = a))) =
          rest.filter (fun a => !acc.any (fun b => decide (b = a))) := by
        apply List.filter_congr
        intro a ha
        have hne : ag ≠ a := fun hcon => hnd.1 (hcon ▸ ha)
        simp [List.any_append, hne]
      rw [hfeq, List.append_assoc]
      rfl

/-- C6 (corrected, amended): in discussion mode, whenever the five canonical
roster lookups resolve to their intended agents (a side condition, not a
tautology: the substring lookup aliases when the subject title embeds a role
name, see the counterexample, so the unconditional claim is false), the
composed agent order is the resolved preferred agent first, followed by the
remaining roster in the fixed professor, expert, challenger, student,
connector sequence with the primary deduplicated, and the full canonical
sequence when no preferred role resolves; no role appears twice.  The
composition is a pure function of its inputs, so identical inputs give the
identical ordered task list. -/
theorem c6_discussion_order (subject : Str) (pref : Option Str)
    (hP : find_agent_by_role (create_classroom_crew subject) "Socratic Mentor".data =
      some (professorAgent subject))
    (hE : find_agent_by_role (create_classroom_crew subject) "Problem Analyst".data =
      some (expertAgent subject))
    (hC : find_agent_by_role (create_classroom_crew subject) "Critical Thinker".data =
      some challengerAgent)
    (hS : find_agent_by_role (create_classroom_crew subject) "Peer Student".data =
      some studentAgent)
    (hCo : find_agent_by_role (create_classroom_crew subject) "Interdisciplinary Connector".data =
      some connectorAgent) :
    ((discussionAgentOrder (create_classroom_crew subject) (resolveActualRole pref)).map
       (fun a => a.role)).Nodup ∧
    (∀ p, discussionPrimary (create_classroom_crew subject) (resolveActualRole pref) = some p →
       p ∈ (create_classroom_crew subject).agents ∧
       discussionAgentOrder (create_classroom_crew subject) (resolveActualRole pref) =
         p :: (create_classroom_crew subject).agents.filter (fun a => !decide (a = p))) ∧
    (discussionPrimary (create_classroom_crew subject) (resolveActualRole pref) = none →
       discussionAgentOrder (create_classroom_crew subject) (resolveActualRole pref) =
         (create_classroom_crew subject).agents) := by
  have hlook : rosterLookups (create_classroom_crew subject) =
      ([professorAgent subject, expertAgent subject, challengerAgent, studentAgent,
        connectorAgent].map some) := by
    unfold rosterLookups
    rw [hP, hE, hC, hS, hCo]
    rfl
  have hnd : ([professorAgent subject, expertAgent subject, challengerAgent, studentAgent,
      connectorAgent]).Nodup := roster_nodup subject
  cases hp : discussionPrimary (create_classroom_crew subject) (resolveActualRole pref) with
  | some p =>
    have hbase : primaryBase (create_classroom_crew subject) (resolveActualRole pref) = [p] := by
      unfold primaryBase
      rw [hp]
    have hfold := orderFold_spec [professorAgent subject, expertAgent subject, challengerAgent,
      studentAgent, connectorAgent] [p] hnd
    have hfc : ([professorAgent subject, expertAgent subject, challengerAgent, studentAgent,
        connectorAgent]).filter (fun a => !([p].any (fun b => decide (b = a)))) =
        ([professorAgent subject, expertAgent subject, challengerAgent, studentAgent,
        connectorAgent]).filter (fun a => !decide (a = p)) := by
      apply List.filter_congr
      intro a _
      simp only [List.any_cons, List.any_nil, Bool.or_false]
      rw [decide_eq_decide.mpr eq_comm]
    have horder : discussionAgentOrder (create_classroom_crew subject) (resolveActualRole pref) =
        p :: (([professorAgent subject, expertAgent subject, challengerAgent, studentAgent,
          connectorAgent]).filter (fun a => !decide (a = p))) := by
      unfold discussionAgentOrder
      rw [hlook, hbase, hfold, hfc]
      rw [if_neg (by simp)]
      rfl
    have hpnotin : p ∉ ([professorAgent subject, expertAgent subject, challengerAgent,
        studentAgent, connectorAgent]).filter (fun a => !decide (a = p)) := by
      intro hmem
      have := (List.mem_filter.mp hmem).2
      simp at this
    have hordernd : (p :: (([professorAgent subject, expertAgent subject, challengerAgent,
        studentAgent, connectorAgent]).filter (fun a => !decide (a = p)))).Nodup :=
      List.nodup_cons.mpr ⟨hpnotin, hnd.filter _⟩
    refine ⟨?_, ?_, ?_⟩
    · rw [horder]
      exact hordernd.map role_injective
    · intro p2 hp2
      cases hp2
      exact ⟨discussionPrimary_mem hp, horder⟩
    · intro hnone
      exact Option.noConfusion hnone
  | none =>
    have hbase : primaryBase (create_classroom_crew subject) (resolveActualRole pref) = [] := by
      unfold primaryBase
      rw [hp]
    have hfold := orderFold_spec [professorAgent subject, expertAgent subject, challengerAgent,
      studentAgent, connectorAgent] [] hnd
    have hfilter : ([professorAgent subject, expertAgent subject, challengerAgent, studentAgent,
        connectorAgent]).filter (fun a => !(([] : List AgentR).any (fun b => decide (b = a)))) =
        [professorAgent subject, expertAgent subject, challengerAgent, studentAgent,
        connectorAgent] := by
      apply List.filter_eq_self.mpr
      intro a _
      simp
    have horder : discussionAgentOrder (create_classroom_crew subject) (resolveActualRole pref) =
        [professorAgent subject, expertAgent subject, challengerAgent, studentAgent,
          connectorAgent] := by
      unfold discussionAgentOrder
      rw [hlook, hbase, hfold, hfilter]
      rw [if_neg (by simp)]
      rfl
    refine ⟨?_, ?_, ?_⟩
    · rw [horder]
      exact hnd.map role_injective
    · intro p2 hp2
      exact Option.noConfusion hp2
    · intro _
      exact horder

/-- C6 witness: subject `mathematics`, preferred role `expert` — the expert
goes first, followed by the remaining roster in canonical order. -/
theorem c6_discussion_order_witness :
    discussionAgentOrder (create_classroom_crew "mathematics".data)
        (resolveActualRole (some "expert".data)) =
      expertAgent "mathematics".data ::
        ((create_classroom_crew "mathematics".data).agents.filter
          (fun a => !decide (a = expertAgent "mathematics".data))) :=
  ((c6_discussion_order "mathematics".data (some "expert".data) rfl rfl rfl rfl rfl).2.1
    (expertAgent "mathematics".data) rfl).2

/-- C6 counterexample: for subject `critical thinker` the title-cased subject
embeds the challenger role, so the `Critical Thinker` lookup aliases to the
professor (`Socratic Mentor for Critical Thinker`) and the challenger agent —
though on the roster — is dropped from the composed order, refuting the
claimed `remaining roster roles in the fixed canonical order`. -/
theorem c6_counterexample :
    challengerAgent ∈ (create_classroom_crew "critical thinker".data).agents ∧
    challengerAgent ∉ discussionAgentOrder (create_classroom_crew "critical thinker".data)
      (resolveActualRole none) ∧
    discussionAgentOrder (create_classroom_crew "critical thinker".data)
        (resolveActualRole none) =
      [professorAgent "critical thinker".data, expertAgent "critical thinker".data,
       studentAgent, connectorAgent] :=
  ⟨by decide, by decide, by decide⟩
